import Mathlib

/-!
Verification of the itinerary-synthesis engine of the travel-planner backend
(`travel-planner-backend/langgraph_agent.py`).

The Python source is shallowly embedded: dictionaries holding spot data become
records with optional fields (absent key = `none`), Python float arithmetic is
modelled over `ℚ`, Python's substring test `in` becomes a character-list infix
test, and the stable `list.sort(key=..., reverse=True)` becomes a stable
descending insertion sort (stable sorts are extensionally unique, so any
stable sort is a faithful embedding).  External collaborators (LLM, web
search, media analyzer) are abstracted as oracle parameters, as the spec
treats them as black boxes.
-/

namespace TravelPlanner

/-! ## Python-semantics helpers -/

/-- Python's substring test `needle in haystack` on strings:
contiguous-substring membership, decided over the character lists. -/
def pyStrIn (needle hay : String) : Bool :=
  (hay.toList.tails).any (fun t => needle.toList.isPrefixOf t)

/-- Python's `str.lower()` (ASCII case folding; CJK characters unaffected). -/
def pyLower (s : String) : String :=
  ⟨s.toList.map Char.toLower⟩

/-- Drop a maximal leading whitespace run. -/
def wsDropChars : List Char → List Char
  | [] => []
  | c :: cs => if c.isWhitespace then wsDropChars cs else c :: cs

/-- Python's `str.strip()`: trim leading and trailing whitespace. -/
def pyStrip (s : String) : String :=
  ⟨(wsDropChars (wsDropChars s.toList).reverse).reverse⟩

/-- Python's `str.startswith(prefix)`. -/
def pyStartsWith (s pre : String) : Bool :=
  pre.toList.isPrefixOf s.toList

/-- One pass of Python's `str.replace(old, new)` with `new = ""` (the only
replacement the source performs), over the characters with explicit fuel
(one unit per consumed character, so `cs.length` is always enough). -/
def removeAllFuel (pat : List Char) : ℕ → List Char → List Char
  | 0, cs => cs
  | _ + 1, [] => []
  | fuel + 1, c :: cs =>
    if ¬pat.isEmpty && pat.isPrefixOf (c :: cs) then
      removeAllFuel pat fuel ((c :: cs).drop pat.length)
    else c :: removeAllFuel pat fuel cs

/-- Python's `s.replace(old, "")`: delete every (non-overlapping,
left-to-right) occurrence of `old`. -/
def pyRemoveAll (s old : String) : String :=
  ⟨removeAllFuel old.toList s.toList.length s.toList⟩

/-- A Python value that can sit in a spot's `rating` field:
`None`, a number (Python `int`/`float`, modelled over `ℚ`), or a string. -/
inductive PyVal where
  | none
  | num (q : ℚ)
  | str (s : String)
  deriving DecidableEq, Repr

/-- Python truthiness of a `PyVal` (`None`, `0`, `""` are falsy). -/
def pyTruthy : PyVal → Bool
  | .none => false
  | .num q => q ≠ 0
  | .str s => s ≠ ""

/-- Python's `a or b` for `PyVal`s: `a` when truthy, else `b`. -/
def pyOr (a b : PyVal) : PyVal :=
  if pyTruthy a then a else b

/-- Modelled from the spec: Python's builtin `float(str)` parser (a language
builtin, not repository code).  Accepts an optional sign, digits, and an
optional fractional part; anything else (e.g. `"abc"`) raises, modelled as
`none`.  Scientific notation and special values are not needed by any claim
and are treated as unparseable. -/
def parseFloatDigits : List Char → Option ℚ → Option (ℚ × List Char)
  | [], acc => acc.map (·, [])
  | c :: cs, acc =>
    if c.isDigit then
      parseFloatDigits cs (some ((acc.getD 0) * 10 + (c.toNat - '0'.toNat)))
    else
      acc.map (·, c :: cs)

/-- Fractional part: consumes digits after the decimal point. -/
def parseFloatFrac : List Char → ℚ → ℚ → Option ℚ
  | [], acc, _ => some acc
  | c :: cs, acc, scale =>
    if c.isDigit then
      parseFloatFrac cs (acc + (c.toNat - '0'.toNat) * scale / 10) (scale / 10)
    else
      Option.none

/-- Modelled from the spec: Python `float()` on a string (builtin). -/
def pyFloatOfString (s : String) : Option ℚ :=
  let chars := (pyStrip s).toList
  let (sign, rest) : ℚ × List Char :=
    match chars with
    | '-' :: cs => (-1, cs)
    | '+' :: cs => (1, cs)
    | cs => (1, cs)
  match rest with
  | [] => Option.none
  | _ =>
    match parseFloatDigits rest Option.none with
    | some (intPart, []) => some (sign * intPart)
    | some (intPart, '.' :: cs) =>
      (parseFloatFrac cs intPart (1 : ℚ)).map (sign * ·)
    | some (_, _ :: _) => Option.none
    | Option.none =>
      match rest with
      | '.' :: cs =>
        match cs with
        | [] => Option.none
        | _ => (parseFloatFrac cs 0 (1 : ℚ)).map (sign * ·)
      | _ => Option.none

/-- Python `float(v)`: numbers pass through, strings are parsed, `None`
raises (`none` = raised exception). -/
def pyFloat : PyVal → Option ℚ
  | .none => Option.none
  | .num q => some q
  | .str s => pyFloatOfString s

/-! ## Data model: candidate spots

A `CandidateSpot` is a Python dict; the engine reads the keys `rating`,
`category`, `title` and `id` via `dict.get` with per-site defaults, so each
field is optional (`none` = key absent). -/

structure Spot where
  id : Option String := Option.none
  title : Option String := Option.none
  category : Option String := Option.none
  rating : Option PyVal := Option.none
  deriving DecidableEq, Repr, Inhabited

/-- `_estimate_duration_hours` (lines 45–63): category-keyword lookup table
for the estimated visit duration in hours. -/
def estimateDurationHours (s : Spot) : ℕ :=
  let category := s.category.getD ""
  if ["户外", "郊游", "自然", "公园", "山"].any (fun k => pyStrIn k category) then 4
  else if ["景点", "游览", "观光"].any (fun k => pyStrIn k category) then 3
  else if ["博物馆", "美术馆", "文化", "历史"].any (fun k => pyStrIn k category) then 2
  else if ["购物", "商场", "商业"].any (fun k => pyStrIn k category) then 2
  else if ["美食", "餐厅", "小吃", "街"].any (fun k => pyStrIn k category) then 1
  else 2

/-! ## Scoring Engine (`_score_and_sort_spots`, lines 66–105) -/

/-- A scored spot: the dict copy `dict(s)` with the transient `_score` key. -/
structure ScoredSpot where
  spot : Spot
  score : ℚ
  deriving DecidableEq, Repr

/-- Stable descending insertion: walk past elements with a strictly larger
key and place `x` before the first element whose key is `≤ key x`.  Under
`foldr` (which inserts earlier-input elements into the already-sorted tail),
a tie therefore keeps the earlier-input element first — exactly Python's
stable `list.sort(key=..., reverse=True)` (line 104). -/
def pyInsertDescBy {α : Type} (key : α → ℚ) (x : α) : List α → List α
  | [] => [x]
  | y :: ys => if key x < key y then y :: pyInsertDescBy key x ys else x :: y :: ys

/-- Stable descending sort by a rational key (Python stable sort with
`reverse=True`). -/
def pySortDescBy {α : Type} (key : α → ℚ) (l : List α) : List α :=
  l.foldr (pyInsertDescBy key) []

/-- The per-spot score of `_score_and_sort_spots` (lines 78–99).  `idx` is the
spot's position in the input list.  Fails (`none`) exactly when Python's
`float(...)` raises on the rating value. -/
def scoreOf (interests : List String) (budget : String) (idx : ℕ) (s : Spot) :
    Option ℚ :=
  match pyFloat (pyOr (s.rating.getD (.num (9/2))) (.num (9/2))) with
  | Option.none => Option.none
  | some rating =>
    let category := s.category.getD ""
    let title := s.title.getD ""
    let interestBonus : ℚ :=
      if interests.any (fun it => it ≠ "" && (pyStrIn it category || pyStrIn it title))
      then 1 else 0
    -- `max(0.3, 1.0 - idx * 0.05)`, written as its defining conditional
    let basePopularity : ℚ :=
      if 1 - (idx : ℚ) * (5/100) ≤ 3/10 then 3/10 else 1 - (idx : ℚ) * (5/100)
    let budgetFactor : ℚ :=
      if budget = "高" then 105/100 else if budget = "低" then 95/100 else 1
    some ((rating * (6/10) + interestBonus * (3/10) + basePopularity * (1/10)) * budgetFactor)

/-- The scoring loop of `_score_and_sort_spots`: builds the list of scored
dict copies, aborting (`none`) if any rating fails to convert. -/
def scoreLoop (interests : List String) (budget : String) :
    ℕ → List Spot → Option (List ScoredSpot)
  | _, [] => some []
  | idx, s :: rest =>
    match scoreOf interests budget idx s with
    | Option.none => Option.none
    | some sc =>
      (scoreLoop interests budget (idx + 1) rest).map (⟨s, sc⟩ :: ·)

/-- `_score_and_sort_spots(spots, interests, budget)` (lines 66–105):
score every spot, then sort descending by score with Python's stable sort.
`none` models the uncaught `ValueError`/`TypeError` from `float(...)`. -/
def scoreAndSortSpots (spots : List Spot) (interests : List String)
    (budget : String) : Option (List ScoredSpot) :=
  if spots.isEmpty then some [] else
    (scoreLoop interests budget 0 spots).map (pySortDescBy ScoredSpot.score)

/-! ## Interest-Ratio Balancer (`_apply_interest_ratio`, lines 108–184) -/

/-- The per-spot interest test of `_apply_interest_ratio` (lines 127–131):
any interest keyword occurring in `category ++ " " ++ title`. -/
def isInterestSpot (interests : List String) (s : ScoredSpot) : Bool :=
  let cat := s.spot.category.getD ""
  let title := s.spot.title.getD ""
  let text := cat ++ " " ++ title
  interests.any (fun it => it ≠ "" && pyStrIn it text)

/-- The interleaving `while` loop of `_apply_interest_ratio` (lines 152–181),
with explicit fuel to keep the recursion structural (every iteration
consumes one spot, so `is.length + os.length` is always exactly enough).
`is`/`os` are the unconsumed suffixes of the interest / other partitions,
`used` the number of spots emitted so far (`len(result)`), `iu` the number of
interest spots emitted so far (`interest_used`). -/
def ratioMergeGoF (r : ℚ) (target : ℕ) :
    ℕ → List ScoredSpot → List ScoredSpot → ℕ → ℕ → List ScoredSpot
  | 0, _, _, _, _ => []
  | _ + 1, [], [], _, _ => []
  | fuel + 1, i :: is', [], used, iu =>
    -- other spots exhausted: whether via `take_interest` or the final
    -- `else` branch, the next interest spot is emitted
    i :: ratioMergeGoF r target fuel is' [] (used + 1) (iu + 1)
  | fuel + 1, [], o :: os', used, iu =>
    o :: ratioMergeGoF r target fuel [] os' (used + 1) iu
  | fuel + 1, i :: is', o :: os', used, iu =>
    let currentRatio : ℚ := if used = 0 then 0 else (iu : ℚ) / (used : ℚ)
    if iu < target ∧ currentRatio ≤ r then
      i :: ratioMergeGoF r target fuel is' (o :: os') (used + 1) (iu + 1)
    else
      o :: ratioMergeGoF r target fuel (i :: is') os' (used + 1) iu

/-- The `while` loop with its exact fuel. -/
def ratioMergeGo (r : ℚ) (target : ℕ) (is os : List ScoredSpot)
    (used iu : ℕ) : List ScoredSpot :=
  ratioMergeGoF r target (is.length + os.length) is os used iu

/-- `_apply_interest_ratio(sorted_spots, interests, max_interest_ratio)`
(lines 108–184): reorder the scored list so interest-tagged spots do not
dominate, dropping nothing. -/
def applyInterestRatio (sortedSpots : List ScoredSpot) (interests : List String)
    (maxInterestRatio : ℚ := 6/10) : List ScoredSpot :=
  if sortedSpots.isEmpty || interests.isEmpty then sortedSpots else
    let interests' := interests.filter (· ≠ "")
    let parts := sortedSpots.partition (fun s => isInterestSpot interests' s)
    let interestSpots := parts.1
    let otherSpots := parts.2
    let total := sortedSpots.length
    -- `int(total * max_interest_ratio)` truncates toward zero; both factors
    -- are nonnegative here, so it is the floor
    let target0 := (((total : ℚ) * maxInterestRatio).floor).toNat
    let target := if target0 = 0 ∧ ¬interestSpots.isEmpty then 1 else target0
    ratioMergeGo maxInterestRatio target interestSpots otherSpots 0 0

/-! ## Day Allocator (`_split_spots_by_day`, lines 187–210) -/

/-- Python's `min(range(n), key=lambda i: hours[i])`: index of the first
minimum of the list. -/
def argminIdx : List ℕ → ℕ
  | [] => 0
  | [_] => 0
  | x :: y :: rest =>
    let j := argminIdx (y :: rest)
    if x ≤ (y :: rest).getD j 0 then 0 else j + 1

/-- Python's `min(candidates, key=lambda i: hours[i])`: the first element of
the (nonempty) index list minimizing `hours`. -/
def argminBy (hours : List ℕ) : List ℕ → ℕ
  | [] => 0
  | [i] => i
  | i :: j :: rest =>
    let b := argminBy hours (j :: rest)
    if hours.getD i 0 ≤ hours.getD b 0 then i else b

/-- The day-choice logic of `_split_spots_by_day` (lines 199–207): the
minimum-hours day, overridden via the overflow exception when a candidate
day with `hours + dur ≤ 9` exists. -/
def chooseDayIdx (hours : List ℕ) (dur : ℕ) : ℕ :=
  let idx := argminIdx hours
  if hours.getD idx 0 + dur > 9 ∧ hours.any (· < 7) then
    let candidates := (List.range hours.length).filter (fun i => hours.getD i 0 + dur ≤ 9)
    if candidates.isEmpty then idx else argminBy hours candidates
  else idx

/-- One iteration of the greedy loop of `_split_spots_by_day`: assign `s` to
the chosen day, appending it to that bucket and adding its duration. -/
def splitStep (acc : List (List Spot) × List ℕ) (s : Spot) :
    List (List Spot) × List ℕ :=
  let buckets := acc.1
  let hours := acc.2
  let dur := estimateDurationHours s
  let idx := chooseDayIdx hours dur
  (buckets.set idx (buckets.getD idx [] ++ [s]),
   hours.set idx (hours.getD idx 0 + dur))

/-- `_split_spots_by_day(sorted_spots, days)` (lines 187–210): `days` is a
Python `int`; nonpositive day counts return `[]`. -/
def splitSpotsByDay (sortedSpots : List Spot) (days : ℤ) : List (List Spot) :=
  if days ≤ 0 then [] else
    let d := days.toNat
    (sortedSpots.foldl splitStep (List.replicate d [], List.replicate d 0)).1

/-- The Day Allocator of the spec: `generate_itinerary` coerces a
nonpositive day count to 1 (lines 441–442) before calling
`_split_spots_by_day`. -/
def allocate (spots : List Spot) (dayCount : ℤ) : List (List Spot) :=
  splitSpotsByDay spots (if dayCount ≤ 0 then 1 else dayCount)

/-! ## Day Theme Summarizer (`_build_day_theme_summary`, lines 213–274) -/

/-- Result shape of `_build_day_theme_summary`. -/
structure SummaryInfo where
  totalHours : ℕ
  theme : String
  highlights : List String
  summary : String
  deriving DecidableEq, Repr

/-- `category_counter[cat] = category_counter.get(cat, 0) + 1` on an
insertion-ordered association list (Python dicts preserve insertion order). -/
def bumpCount (counter : List (String × ℕ)) (cat : String) : List (String × ℕ) :=
  if counter.any (fun p => p.1 = cat) then
    counter.map (fun p => if p.1 = cat then (p.1, p.2 + 1) else p)
  else counter ++ [(cat, 1)]

/-- Python's `max(items, key=lambda x: x[1])`: first pair attaining the
maximal count, in iteration order. -/
def maxByCount : List (String × ℕ) → String × ℕ
  | [] => ("", 0)
  | [p] => p
  | p :: q :: rest =>
    let b := maxByCount (q :: rest)
    if b.2 ≤ p.2 then p else b

/-- The accumulation loop of `_build_day_theme_summary` (lines 239–245):
total hours and the category counter. -/
def summaryFold (spots : List Spot) : ℕ × List (String × ℕ) :=
  spots.foldl
    (fun acc s =>
      (acc.1 + estimateDurationHours s, bumpCount acc.2 (s.category.getD "其他")))
    (0, [])

/-- `_build_day_theme_summary(spots_for_day, destination)` (lines 213–274). -/
def buildDayThemeSummary (spotsForDay : List Spot) (destination : String) :
    SummaryInfo :=
  if spotsForDay.isEmpty then
    let theme := "轻松自由逛逛" ++ destination
    { totalHours := 6, theme := theme, highlights := [],
      summary := "约 6 小时 · 主题：" ++ theme }
  else
    let acc := summaryFold spotsForDay
    let totalHours := acc.1
    let mainCategory := (maxByCount acc.2).1
    let theme :=
      if ["美食", "餐厅", "小吃"].any (fun k => pyStrIn k mainCategory) then
        "美食探索日"
      else if ["户外", "自然", "公园", "山"].any (fun k => pyStrIn k mainCategory) then
        "户外 / 自然风光日"
      else if ["文化", "历史", "博物馆"].any (fun k => pyStrIn k mainCategory) then
        "人文历史 & 博物馆体验"
      else if ["购物", "商场", "商业"].any (fun k => pyStrIn k mainCategory) then
        "购物逛街 & 轻松漫步"
      else destination ++ " 经典景点打卡日"
    let highlights :=
      (spotsForDay.take 2).filterMap
        (fun s => if pyTruthy (.str (s.title.getD "")) then some (s.title.getD "") else Option.none)
    let summary0 := "约 " ++ toString totalHours ++ " 小时 · 主题：" ++ theme
    let summary :=
      if highlights.isEmpty then summary0
      else summary0 ++ " · 亮点：" ++ String.intercalate "、" highlights
    { totalHours := totalHours, theme := theme, highlights := highlights,
      summary := summary }

/-! ## Timeline Builder (`_build_day_timeline`, lines 277–396) -/

/-- An activity dict `{id, icon, title, time, description, ref_spot_id?}`.
`refSpotId = none` models both an absent key and a `None` value (no claim
distinguishes them). -/
structure Activity where
  id : String
  icon : String
  title : String
  time : String
  description : String
  refSpotId : Option String := Option.none
  deriving DecidableEq, Repr

/-- `pick_icon` (lines 307–311): first matching key of the insertion-ordered
icon table, default pin. -/
def pickIcon (category : String) : String :=
  if pyStrIn "景点" category then "🗺️"
  else if pyStrIn "观光" category then "🗺️"
  else if pyStrIn "文化" category then "🏛️"
  else if pyStrIn "博物馆" category then "🏛️"
  else if pyStrIn "历史" category then "🏛️"
  else if pyStrIn "户外" category then "⛰️"
  else if pyStrIn "自然" category then "⛰️"
  else if pyStrIn "公园" category then "🌳"
  else if pyStrIn "美食" category then "🍜"
  else if pyStrIn "餐厅" category then "🍽️"
  else if pyStrIn "小吃" category then "🥟"
  else if pyStrIn "购物" category then "🛍️"
  else if pyStrIn "夜景" category then "🌉"
  else if pyStrIn "娱乐" category then "🎡"
  else "📍"

/-- Python's `f"{h:02d}"` for the hours appearing here (0 ≤ h ≤ 21). -/
def pad2 (h : ℕ) : String :=
  if h < 10 then "0" ++ toString h else toString h

/-- `f"{start:02d}:00 - {end:02d}:00"`. -/
def fmtTimeRange (startH endH : ℕ) : String :=
  pad2 startH ++ ":00 - " ++ pad2 endH ++ ":00"

/-- Display form of a rating value inside an f-string.  The decimal
rendering of Python floats is approximated (integral values print without a
fractional part, other rationals as fractions); no claim depends on this
display text. -/
def pyValRepr : PyVal → String
  | .none => "None"
  | .str s => s
  | .num q => if q.den = 1 then toString q.num else toString q

/-- The spot loop of `_build_day_timeline` (lines 328–365): walks the
bucket with index `i` and the clock `cur`, inserting the fixed lunch slot and
emitting one activity per spot until the clock reaches 21:00.  Returns the
emitted activities together with the final clock value. -/
def timelineLoop (dayIndex : ℕ) (dest : String) :
    List Spot → ℕ → ℕ → List Activity × ℕ
  | [], _, cur => ([], cur)
  | s :: rest, i, cur =>
    let duration := estimateDurationHours s
    if 21 ≤ cur then ([], cur)  -- `break`
    else
      let lunch :=
        if 12 ≤ cur ∧ cur < 13 then
          ([{ id := "day_" ++ toString (dayIndex + 1) ++ "_lunch"
              icon := "🍽️"
              title := dest ++ " 当地午餐"
              time := "12:00 - 13:00"
              description := "在附近找一家评价不错的餐厅，尝试" ++ dest ++ "的本地风味。" }],
           13)
        else ([], cur)
      let cur1 := lunch.2
      let startH := cur1
      let endH := min (cur1 + duration) 21
      let category := s.category.getD "景点"
      let title := s.title.getD (dest ++ " 景点")
      let rating := s.rating.getD .none
      let ratingText := if rating = .none then "" else " · 评分 " ++ pyValRepr rating
      let act : Activity :=
        { id := "day_" ++ toString (dayIndex + 1) ++ "_spot_" ++ toString (i + 1)
          icon := pickIcon category
          title := title
          time := fmtTimeRange startH endH
          description := category ++ ratingText ++ "。建议停留约 " ++ toString duration
            ++ " 小时，并已与同区域/同类型景点放在同一天，尽量减少来回折腾。"
          refSpotId := s.id }
      let restAns := timelineLoop dayIndex dest rest (i + 1) endH
      (lunch.1 ++ act :: restAns.1, restAns.2)

/-- `_build_day_timeline(day_index, destination, spots_for_day, budget)`
(lines 277–396). -/
def buildDayTimeline (dayIndex : ℕ) (dest : String) (spotsForDay : List Spot)
    (budget : String) : List Activity :=
  if spotsForDay.isEmpty then
    [{ id := "day_" ++ toString (dayIndex + 1) ++ "_free"
       icon := "😌"
       title := dest ++ " 自由活动"
       time := "10:00 - 16:00"
       description := "这一天留给你自由安排，可以慢慢逛逛" ++ dest ++ "的街道、咖啡馆或商场。" }]
  else
    let walked := timelineLoop dayIndex dest spotsForDay 0 9
    let afterRest :=
      if walked.2 < 18 then
        (walked.1 ++
          [{ id := "day_" ++ toString (dayIndex + 1) ++ "_rest"
             icon := "☕"
             title := "咖啡小憩 & 街头漫步"
             time := fmtTimeRange walked.2 18
             description := "找一家喜欢的咖啡店或面包房，慢慢歇歇脚，再在附近街区随意走走。" }],
         18)
      else walked
    let dinner : Activity :=
      if budget = "高" then
        { id := "day_" ++ toString (dayIndex + 1) ++ "_dinner"
          icon := "🍷"
          title := dest ++ " 精致晚餐 & 夜景"
          time := "19:00 - 21:00"
          description := "选择环境与评价更好的餐厅用餐，之后可以去看一看" ++ dest ++ "的夜景或河岸/海边。" }
      else
        { id := "day_" ++ toString (dayIndex + 1) ++ "_dinner"
          icon := "🍜"
          title := dest ++ " 夜市 / 街头小吃"
          time := "19:00 - 20:30"
          description := "逛逛夜市或人气小吃街，轻松随意地感受" ++ dest ++ "的夜晚。" }
    afterRest.1 ++ [dinner]

/-- Number of spot activities emitted by the Timeline Builder: the fixed
lunch/rest/dinner/free fillers carry ids `day_k_lunch` / `day_k_rest` /
`day_k_dinner` / `day_k_free`, while per-spot activities carry
`day_k_spot_i`. -/
def spotActivityCount (acts : List Activity) : ℕ :=
  acts.countP (fun a => pyStrIn "_spot_" a.id)

/-! ## Heap model of the Scoring Engine (frame effect, lines 100–104)

Python spot dicts are mutable heap objects.  To state that
`_score_and_sort_spots` never mutates its input (it writes `_score` only on
the fresh copy `s_copy = dict(s)`), the loop is re-embedded against an
explicit store: addresses are indices into a list of dicts, and `dict(s)`
allocates a new address at the end of the store. -/

/-- A spot dict living in the store: the spot fields plus the transient
`_score` key (`none` = key absent). -/
structure SpotDict where
  spot : Spot
  scoreKey : Option ℚ := Option.none
  deriving DecidableEq, Repr, Inhabited

/-- The heap: dicts addressed by position; allocation appends. -/
abbrev Store := List SpotDict

/-- The scoring loop of `_score_and_sort_spots` over the store: reads the
dict at each input address, allocates the copy `dict(s)` with `_score` set,
and returns the fresh addresses.  `none` models the uncaught exception from
`float(...)` (the store keeps the copies already allocated). -/
def scoreStoreLoop (interests : List String) (budget : String) :
    Store → List ℕ → ℕ → Store × Option (List ℕ)
  | σ, [], _ => (σ, some [])
  | σ, a :: rest, idx =>
    let d := σ.getD a default
    match scoreOf interests budget idx d.spot with
    | Option.none => (σ, Option.none)
    | some sc =>
      let addr := σ.length
      let σ' := σ ++ [{ spot := d.spot, scoreKey := some sc }]
      match scoreStoreLoop interests budget σ' rest (idx + 1) with
      | (σ'', Option.none) => (σ'', Option.none)
      | (σ'', some addrs) => (σ'', some (addr :: addrs))

/-- `_score_and_sort_spots` against the store: the returned list holds the
fresh copies, sorted stably descending by the `_score` stored in them. -/
def scoreAndSortSpotsStore (σ : Store) (addrs : List ℕ) (interests : List String)
    (budget : String) : Store × Option (List ℕ) :=
  if addrs.isEmpty then (σ, some []) else
    match scoreStoreLoop interests budget σ addrs 0 with
    | (σ', Option.none) => (σ', Option.none)
    | (σ', some scored) =>
      (σ', some (pySortDescBy (fun a => ((σ'.getD a default).scoreKey).getD 0) scored))

/-! ## Conversation data model -/

/-- A chat message `{"role": ..., "content": ...}`. -/
structure Msg where
  role : String
  content : String
  deriving DecidableEq, Repr

/-- A day plan dict as built by `node_generate_single_day` /
`generate_itinerary`: `{id, day, summary, meta: {total_hours, theme,
highlights}, activities}`.  A plan replaced by a raw LLM-edit JSON object is
stored as its best-effort structured rendering (see `planOfJson`); no claim
inspects the content of such a plan. -/
structure DayPlan where
  id : String
  day : String
  summary : String
  metaTotalHours : ℕ
  metaTheme : String
  metaHighlights : List String
  activities : List Activity
  deriving DecidableEq, Repr

/-- A city hotspot `{id, title, rank, ...}` from the search collaborator. -/
structure Hotspot where
  id : Option String := Option.none
  title : Option String := Option.none
  rank : Option ℤ := Option.none
  deriving DecidableEq, Repr

/-- The `TravelPlanState` TypedDict (lines 25–40).  Every key other than
`messages` may be absent (the server seeds only part of them), so each is an
`Option`; `dict.get(key, default)` becomes `Option.getD`.  The
`{"plans": [...]}` wrapper around the itinerary is elided: `none` models the
absent key and the empty-dict placeholder `{}` alike (both read as no plans
and are falsy), `some plans` models `{"plans": plans}`. -/
structure AgentState where
  messages : List Msg := []
  destination : Option String := Option.none
  days : Option ℤ := Option.none
  peopleCount : Option ℤ := Option.none
  interests : Option (List String) := Option.none
  budget : Option String := Option.none
  itinerary : Option (List DayPlan) := Option.none
  featuredSpots : Option (List Spot) := Option.none
  cityHotspots : Option (List Hotspot) := Option.none
  currentPhase : Option String := Option.none
  infoComplete : Option Bool := Option.none
  currentDayIndex : Option ℕ := Option.none
  dayApproved : Option Bool := Option.none
  sortedSpots : Option (List ScoredSpot) := Option.none
  deriving DecidableEq, Repr

/-! ## LLM edit-response model

`node_refine_day` extracts a JSON object from the LLM reply with
`re.search(r'\x7b.*\x7d', text, DOTALL)` followed by `json.loads`.  The
LLM call and that extraction are collaborator behaviour (spec §6), modelled
as an oracle returning the outcome directly. -/

/-- A parsed JSON value. -/
inductive JVal where
  | jnull
  | jbool (b : Bool)
  | jnum (q : ℚ)
  | jstr (s : String)
  | jarr (elems : List JVal)
  | jobj (fields : List (String × JVal))

/-- Python truthiness of a JSON value. -/
def jTruthy : JVal → Bool
  | .jnull => false
  | .jbool b => b
  | .jnum q => q ≠ 0
  | .jstr s => s ≠ ""
  | .jarr xs => ¬xs.isEmpty
  | .jobj fs => ¬fs.isEmpty

/-- `obj.get(key)` on a parsed JSON object. -/
def jlookup (fields : List (String × JVal)) (k : String) : Option JVal :=
  (fields.find? (fun p => p.1 = k)).map (·.2)

/-- Truthiness of `obj.get(key)` (absent key → `None` → falsy). -/
def jlookupTruthy (fields : List (String × JVal)) (k : String) : Bool :=
  ((jlookup fields k).map jTruthy).getD false

/-- Outcome of the brace-regex + `json.loads` pipeline on an LLM reply:
no brace span found, a raised exception (API failure or `json.loads`
error), or a successfully loaded JSON object. -/
inductive EditParse where
  | noMatch
  | badJson
  | parsed (fields : List (String × JVal))

/-- Best-effort string view of a JSON value (used when rendering a raw
edit-JSON plan structurally). -/
def jStrD (v : Option JVal) (d : String) : String :=
  match v with
  | some (.jstr s) => s
  | _ => d

/-- Structured rendering of one activity object from an edit JSON. -/
def activityOfJson : JVal → Activity
  | .jobj fs =>
    { id := jStrD (jlookup fs "id") ""
      icon := jStrD (jlookup fs "icon") ""
      title := jStrD (jlookup fs "title") ""
      time := jStrD (jlookup fs "time") ""
      description := jStrD (jlookup fs "description") ""
      refSpotId := Option.none }
  | _ => { id := "", icon := "", title := "", time := "", description := "" }

/-- Structured rendering of the raw edit-JSON plan stored by
`plans[current_day] = parsed` (line 1085).  The source keeps the raw dict;
this model renders it into the `DayPlan` shape with the defaults the
consuming code applies (`meta.theme` read with default `"未知"`).  No claim
inspects a stored edited plan. -/
def planOfJson (fields : List (String × JVal)) : DayPlan :=
  { id := jStrD (jlookup fields "id") ""
    day := jStrD (jlookup fields "day") ""
    summary := jStrD (jlookup fields "summary") ""
    metaTotalHours := 0
    metaTheme := "未知"
    metaHighlights := []
    activities :=
      match jlookup fields "activities" with
      | some (.jarr xs) => xs.map activityOfJson
      | _ => [] }

/-- The external collaborators (spec §1/§6): LLM completion, the LLM
day-edit call with its JSON extraction, `fetch_featured_spots` (network
search + LLM summarization, returning spot dicts), `search_city_hotspots`
(separate module), and the Xiaohongshu media analyzer
(`analyze_xiaohongshu_media_score` + `format_analysis_for_user`; `none` =
unsuccessful analysis or a raised exception, which the loop skips). -/
structure Oracles where
  complete : String → List Msg → String
  editParse : String → EditParse
  fetchSpots : String → List String → List Spot
  cityHotspots : String → List Hotspot
  analyzeMedia : String → String → Option String

/-- The latest user message (lines 680–684, 906–910): last `role == "user"`
entry, `""` if none. -/
def lastUserMsg (messages : List Msg) : String :=
  ((messages.reverse.find? (fun m => m.role = "user")).map (·.content)).getD ""

/-- `", ".join(xs)`. -/
def joinComma (xs : List String) : String :=
  String.intercalate ", " xs

/-- Python `s or d` on strings. -/
def pyStrOr (s d : String) : String :=
  if s = "" then d else s

/-! ## Fact extraction (`extract_info_from_message`, lines 1105–1161) -/

/-- Maximal leading digit run of a character list. -/
def digitRun : List Char → List Char × List Char
  | [] => ([], [])
  | c :: cs =>
    if c.isDigit then
      let p := digitRun cs
      (c :: p.1, p.2)
    else ([], c :: cs)

/-- Numeric value of a digit run. -/
def natOfDigits (ds : List Char) : ℕ :=
  ds.foldl (fun a c => a * 10 + (c.toNat - '0'.toNat)) 0

/-- `re.search(r'(\d+)\s*天', message)`: leftmost position where a maximal
digit run, optional whitespace, and the character `天` match; returns the
numeric group.  (With a maximal digit/whitespace run the regex engine's
backtracking can never succeed where this scan fails, since shorter runs
leave a digit or whitespace where `天` is required.) -/
def findDaysNum : List Char → Option ℕ
  | [] => Option.none
  | c :: cs =>
    if c.isDigit then
      let p := digitRun (c :: cs)
      match wsDropChars p.2 with
      | '天' :: _ => some (natOfDigits p.1)
      | _ => findDaysNum cs
    else findDaysNum cs

/-- `re.search(r'(\d+)\s*(?:个)?(?:人|位)', message)`, same scanning scheme. -/
def findPeopleNum : List Char → Option ℕ
  | [] => Option.none
  | c :: cs =>
    if c.isDigit then
      let p := digitRun (c :: cs)
      match wsDropChars p.2 with
      | '个' :: '人' :: _ => some (natOfDigits p.1)
      | '个' :: '位' :: _ => some (natOfDigits p.1)
      | '人' :: _ => some (natOfDigits p.1)
      | '位' :: _ => some (natOfDigits p.1)
      | _ => findPeopleNum cs
    else findPeopleNum cs

/-- Python `str.isdigit()` restricted to ASCII digits (the inputs of
interest are plain digit strings). -/
def pyIsDigit (s : String) : Bool :=
  ¬s.isEmpty && s.toList.all Char.isDigit

/-- The interest keyword table (lines 1134–1140, insertion order). -/
def interestsKeywords : List (String × List String) :=
  [("美食", ["美食", "吃", "餐厅", "小吃"]),
   ("购物", ["购物", "逛街", "购买"]),
   ("景点", ["景点", "景观", "游览", "参观"]),
   ("文化", ["文化", "博物馆", "历史"]),
   ("户外", ["户外", "爬山", "登山", "自然"])]

/-- `extract_info_from_message(state, message)` (lines 1105–1161). -/
def extractInfoFromMessage (st : AgentState) (message : String) : AgentState :=
  let messageStripped := pyStrip message
  -- destination: fixed gazetteer, first match wins
  let st :=
    match ["香港", "上海", "北京", "深圳", "杭州", "西安", "广州"].find?
        (fun d => pyStrIn d message) with
    | some d => { st with destination := some d }
    | Option.none => st
  -- days: `(\d+)\s*天`, else a bare all-digit message when days is unset/zero
  let st :=
    match findDaysNum message.toList with
    | some n => { st with days := some (n : ℤ) }
    | Option.none =>
      if pyIsDigit messageStripped && !((st.days.map (fun d => decide (d ≠ 0))).getD false) then
        { st with days := some (natOfDigits messageStripped.toList : ℤ) }
      else st
  -- traveler count
  let st :=
    match findPeopleNum message.toList with
    | some n => { st with peopleCount := some (n : ℤ) }
    | Option.none => st
  -- interests: append matching categories not already present
  let interests1 :=
    interestsKeywords.foldl
      (fun acc p =>
        p.2.foldl
          (fun acc2 kw =>
            if pyStrIn kw message && !acc2.contains p.1 then acc2 ++ [p.1] else acc2)
          acc)
      (st.interests.getD [])
  let st := if interests1.isEmpty then st else { st with interests := some interests1 }
  -- budget
  if pyStrIn "预算" message || pyStrIn "费用" message
      || ["低", "中", "高"].contains messageStripped then
    if pyStrIn "低" message || messageStripped = "低" then
      { st with budget := some "低" }
    else if pyStrIn "高" message || messageStripped = "高" then
      { st with budget := some "高" }
    else
      { st with budget := some "中" }
  else st

/-- `should_generate_plan(state)` (lines 1164–1172). -/
def shouldGeneratePlan (st : AgentState) : Bool :=
  (st.destination.getD "") ≠ "" && ((st.days.getD 0) > 0 : Bool)
    && !(st.interests.getD []).isEmpty

/-! ## Node: greeting (`node_greeting`, lines 628–667) -/

/-- System prompt of `node_greeting`. -/
def greetingSystemPrompt : String :=
  "你是一个专业的旅行规划助手。你的目标是帮助用户规划完美的旅行。\n\n你需要通过对话逐步收集以下信息：\n1. 目的地城市（destination）\n2. 旅行天数（days）\n3. 同行人数（people_count）\n4. 兴趣爱好（interests：美食、购物、文化、景点、户外等）\n5. 预算等级（budget：低/中/高）\n\n现在，用友好热情的语气问候用户，并问他们的旅行目的地。中文回复。"

def nodeGreeting (o : Oracles) (st : AgentState) : AgentState :=
  let reply := o.complete greetingSystemPrompt [⟨"user", "你好"⟩]
  { st with
    messages := st.messages ++ [⟨"user", "你好"⟩, ⟨"assistant", reply⟩]
    currentPhase := some "gathering_info" }

/-! ## Node: gather info (`node_gather_info`, lines 670–724) -/

/-- The re-prompt built from the collected facts (lines 698–709). -/
def gatherSystemPrompt (st : AgentState) : String :=
  "你是一个专业的旅行规划助手。你的任务是收集用户的旅行信息。\n\n已收集的信息：\n- 目的地: "
    ++ (st.destination.getD "未提供")
    ++ "\n- 天数: " ++ ((st.days.map toString).getD "未提供")
    ++ "\n- 人数: " ++ ((st.peopleCount.map toString).getD "未提供")
    ++ "\n- 兴趣: " ++ pyStrOr (joinComma (st.interests.getD [])) "未提供"
    ++ "\n- 预算: " ++ (st.budget.getD "未提供")
    ++ "\n\n请根据已收集的信息，礼貌地询问缺失的信息（目的地/天数/人数/兴趣/预算）。\n不要生成行程、不要总结推荐。只输出简短的确认或追问句子。\n使用中文回复，语气友好、简洁。"

def nodeGatherInfo (o : Oracles) (st : AgentState) : AgentState :=
  let lastMsg := lastUserMsg st.messages
  let st1 := extractInfoFromMessage st lastMsg
  if shouldGeneratePlan st1 then
    { st1 with currentPhase := some "generating_day", infoComplete := some true }
  else
    let reply := o.complete (gatherSystemPrompt st1) st1.messages
    { st1 with messages := st1.messages ++ [⟨"assistant", reply⟩] }

/-! ## Node: initialize planning (`node_initialize_planning`, lines 727–782) -/

/-- The welcome message (lines 760–775). -/
def welcomeMessage (destination : String) (days people : ℤ)
    (interestsStr budget : String) (nFeatured nHotspots : ℕ) : String :=
  "\n太好了！我已经为您收集了 " ++ destination
    ++ " 的热门景点和最新活动信息。\n\n📋 您的旅行概况：\n• 目的地：" ++ destination
    ++ "\n• 天数：" ++ toString days ++ "天\n• 人数：" ++ toString people
    ++ "人\n• 兴趣：" ++ interestsStr ++ "\n• 预算：" ++ budget
    ++ "\n\n✨ 我找到了 " ++ toString nFeatured ++ " 个推荐景点和 "
    ++ toString nHotspots
    ++ " 个热点活动。\n\n接下来我将**逐天**为您规划行程。每规划完一天，您可以提出修改意见，满意后我们再继续下一天的安排。\n\n现在让我为您规划第 1 天的行程...\n"

/-- `node_initialize_planning`: fetch the pool via the collaborators, run
the Scoring Engine and the Balancer once, and reset the itinerary.  `none`
models the uncaught exception when `float(...)` raises inside the scoring
pass. -/
def nodeInitializePlanning (o : Oracles) (st : AgentState) : Option AgentState :=
  let destination := st.destination.getD "香港"
  let days := st.days.getD 3
  let interests := st.interests.getD ["景点"]
  let budget := st.budget.getD "中"
  let people := st.peopleCount.getD 1
  let featured := o.fetchSpots destination interests
  let hotspots := o.cityHotspots destination
  match scoreAndSortSpots featured interests budget with
  | Option.none => Option.none
  | some sorted1 =>
    let sortedSpots := applyInterestRatio sorted1 interests (6/10)
    let interestsStr := pyStrOr (String.intercalate "," interests) "多样化"
    let welcome := welcomeMessage destination days people interestsStr budget
      featured.length hotspots.length
    some { st with
      featuredSpots := some featured
      cityHotspots := some hotspots
      sortedSpots := some sortedSpots
      itinerary := some []
      currentDayIndex := some 0
      dayApproved := some false
      messages := st.messages ++ [⟨"assistant", welcome⟩]
      currentPhase := some "generating_day" }

/-! ## Node: generate single day (`node_generate_single_day`, lines 785–874) -/

/-- The per-day announcement message (lines 847–866). -/
def dayMessage (currentDay : ℕ) (summary : String) (activities : List Activity) :
    String :=
  let header :=
    "\n📅 **Day " ++ toString (currentDay + 1) ++ " 行程规划**\n\n" ++ summary
      ++ "\n\n我为您安排了 " ++ toString activities.length ++ " 个活动，包括：\n"
  let actLines :=
    ((activities.take 3).enum.map
      (fun p => toString (p.1 + 1) ++ ". " ++ p.2.icon ++ " " ++ p.2.title
        ++ " (" ++ p.2.time ++ ")\n")).foldl (· ++ ·) ""
  let more :=
    if 3 < activities.length then
      "...以及其他 " ++ toString (activities.length - 3) ++ " 个活动\n"
    else ""
  header ++ actLines ++ more
    ++ "\n您可以在右侧看到完整的 Day " ++ toString (currentDay + 1)
    ++ " 安排。\n\n💬 如果您想调整这一天的行程（比如更换景点、调整时间等），请告诉我！\n✅ 如果您对这天的安排满意，请说\"满意了\"或\"下一天\"，我将继续规划下一天。\n"

/-- `node_generate_single_day(state)` (lines 785–874): slice the day's
spots from the stored pool by even split, build its timeline and summary,
replace-or-append the `DayPlan`, and move to `refining_day`. -/
def nodeGenerateSingleDay (st : AgentState) : AgentState :=
  let currentDay := st.currentDayIndex.getD 0
  let totalDays := st.days.getD 3
  let destination := st.destination.getD "香港"
  let budget := st.budget.getD "中"
  let sortedSpots := st.sortedSpots.getD []
  let spotsPerDay := if 0 < totalDays then sortedSpots.length / totalDays.toNat else 0
  let startIdx := currentDay * spotsPerDay
  let endIdx :=
    if (currentDay : ℤ) = totalDays - 1 then sortedSpots.length
    else startIdx + spotsPerDay
  let daySpots :=
    if sortedSpots.isEmpty then []
    else (sortedSpots.drop startIdx).take (endIdx - startIdx)
  let daySpotDicts := daySpots.map ScoredSpot.spot
  let activities := buildDayTimeline currentDay destination daySpotDicts budget
  let summaryInfo := buildDayThemeSummary daySpotDicts destination
  let dayPlan : DayPlan :=
    { id := "day_" ++ toString (currentDay + 1)
      day := "Day " ++ toString (currentDay + 1)
      summary := summaryInfo.summary
      metaTotalHours := summaryInfo.totalHours
      metaTheme := summaryInfo.theme
      metaHighlights := summaryInfo.highlights
      activities := activities }
  let plans := st.itinerary.getD []
  let plans' :=
    if currentDay < plans.length then plans.set currentDay dayPlan
    else plans ++ [dayPlan]
  { st with
    itinerary := some plans'
    messages := st.messages ++ [⟨"assistant", dayMessage currentDay summaryInfo.summary activities⟩]
    currentPhase := some "refining_day"
    dayApproved := some false }

/-! ## Node: refine day (`node_refine_day`, lines 893–1102) -/

/-- Completion message (lines 923–934). -/
def completionMessage (totalDays : ℤ) : String :=
  "\n🎉 太棒了！您的 " ++ toString totalDays
    ++ " 天行程规划已全部完成！\n\n您可以在右侧查看完整的行程安排。如果还需要调整任何一天的内容，请随时告诉我（例如\"修改第2天\"）。\n\n您也可以：\n• 查看某个景点的小红书媒体评分（说\"媒体评分\"）\n• 添加城市热点活动到行程中\n• 调整任意一天的具体安排\n\n祝您旅途愉快！✈️\n"

/-- Transition message after a day is approved (line 941). -/
def transitionMessage (currentDay : ℕ) : String :=
  "太好了！Day " ++ toString (currentDay + 1) ++ " 的安排已确认。现在让我为您规划 Day "
    ++ toString (currentDay + 2) ++ "..."

/-- The approval keywords (line 913). -/
def satisfactionKeywords : List String :=
  ["满意", "下一天", "下一个", "继续", "可以了", "没问题", "好的", "next", "ok"]

/-- The approval test (line 914): any keyword inside the lowercased message. -/
def isSatisfiedMsg (lastMsg : String) : Bool :=
  satisfactionKeywords.any (fun k => pyStrIn k (pyLower lastMsg))

/-- The media-rating trigger test (line 948). -/
def isMediaRequest (lastMsg : String) : Bool :=
  pyStrIn "媒体评分" lastMsg || pyStrIn "小红书评分" lastMsg || pyStrIn "社交媒体评价" lastMsg

/-- Generic-activity keywords filtered out of the media analysis
(lines 971–974). -/
def genericActivityKeywords : List String :=
  ["当地午餐", "自由活动", "咖啡小憩", "街头漫步", "精致晚餐", "夜市", "街头小吃", "夜景", "休息"]

/-- The spot-title extraction of the media branch (lines 955–985). -/
def extractSpotsToAnalyze (destination : String) (activities : List Activity) :
    List String :=
  activities.foldl
    (fun acc activity =>
      let title := pyStrip activity.title
      let isGeneric :=
        genericActivityKeywords.any (fun k => pyStrIn k title)
          || pyStartsWith title destination
      if title ≠ "" ∧ ¬isGeneric ∧ 2 < title.length then
        let cleaned := pyStrip (pyRemoveAll title destination)
        if cleaned ≠ "" ∧ ¬acc.contains cleaned then
          acc ++ [if 2 < cleaned.length then cleaned else title]
        else acc
      else acc)
    []

/-- Reply when the media branch finds no concrete spot (line 989). -/
def mediaNoSpotsMessage (currentDay : ℕ) : String :=
  "抱歉，Day " ++ toString (currentDay + 1)
    ++ " 的行程中暂未找到具体的景点或餐厅名称。\n\n请先生成或完善当天的行程安排，或者您可以直接告诉我想了解哪个景点/餐厅的评分。"

/-- Reply of a successful media analysis (lines 1009–1012). -/
def mediaReportMessage (currentDay : ℕ) (results : List String) : String :=
  "📱 小红书媒体评分分析报告 - Day " ++ toString (currentDay + 1)
    ++ "\n\n我为您分析了当天行程中的 " ++ toString results.length
    ++ " 个景点/餐厅：\n\n" ++ String.intercalate "\n\n---\n\n" results
    ++ "\n\n💡 如果某个地点的评分不理想，我可以帮您调整行程，换成其他推荐景点！"

/-- Reply when no analysis succeeded (line 1014). -/
def mediaFailMessage (currentDay : ℕ) (spots : List String) : String :=
  "抱歉，未能找到 Day " ++ toString (currentDay + 1)
    ++ " 行程中这些地点的小红书评价数据：" ++ joinComma spots
    ++ "\n\n这可能是因为景点名称较为通用。您可以告诉我具体的景点名称，我会为您搜索分析。"

/-- The day-edit system prompt (lines 1036–1058). -/
def refineSystemPrompt (destination : String) (interests : List String)
    (currentDay : ℕ) (plan : DayPlan) (lastMsg : String) : String :=
  let n := toString (currentDay + 1)
  "你是一个专业的旅行规划助手。用户正在查看 Day " ++ n
    ++ " 的行程，想要进行调整。\n\n当前 Day " ++ n ++ " 的安排：\n- 目的地："
    ++ destination ++ "\n- 兴趣：" ++ joinComma interests ++ "\n- 当前活动数："
    ++ toString plan.activities.length ++ "\n- 主题：" ++ plan.metaTheme
    ++ "\n\n用户的调整请求：" ++ lastMsg
    ++ "\n\n请分析用户想要如何调整这一天的行程（例如：更换景点、调整时间、添加/删除活动等）。\n然后以 JSON 格式返回调整后的 **Day "
    ++ n ++ "** 计划，格式为：\n\x7b\n  \"id\": \"day_" ++ n
    ++ "\",\n  \"day\": \"Day " ++ n
    ++ "\",\n  \"summary\": \"约X小时·主题：...\",\n  \"activities\": [\n    \x7b\"id\": \"act_1\", \"icon\": \"🗺️\", \"title\": \"活动名称\", \"time\": \"08:00 - 12:00\", \"description\": \"活动描述\"\x7d\n  ]\n\x7d\n\n如果用户只是询问或闲聊，返回 \x7b\"no_change\": true\x7d。\n只返回 JSON，不要其他文字。"

/-- Reply when the itinerary for the current day is missing (line 1030). -/
def noCurrentDayPlanMessage : String :=
  "抱歉，当前天的行程还未生成。请稍后再试。"

/-- Reply of the `no_change` directive (line 1080). -/
def noChangeMessage (currentDay : ℕ) : String :=
  "好的，我明白了。Day " ++ toString (currentDay + 1)
    ++ " 的当前安排保持不变。如果您满意了，请说\x27满意了\x27或\x27下一天\x27继续规划。"

/-- Reply after a successful edit (line 1088). -/
def editAppliedMessage (currentDay : ℕ) : String :=
  "好的，我已经根据您的要求调整了 Day " ++ toString (currentDay + 1)
    ++ " 的行程。您可以在右侧看到更新后的安排。\n\n如果满意，请说\x27满意了\x27或\x27下一天\x27继续规划下一天！"

/-- Reply when the JSON lacks an `activities` key (line 1090). -/
def editNeedDetailMessage (currentDay : ℕ) : String :=
  "我理解了您的需求，但需要更具体的信息才能调整 Day " ++ toString (currentDay + 1)
    ++ "。请告诉我您想改变哪个活动或景点。"

/-- Reply when no JSON span was found in the LLM reply (line 1093). -/
def editNoJsonMessage (currentDay : ℕ) : String :=
  "我理解您想调整 Day " ++ toString (currentDay + 1)
    ++ " 的行程。请具体告诉我您想修改什么，我会为您更新。"

/-- Reply of the exception handler around the edit call (line 1097). -/
def editErrorMessage : String :=
  "抱歉，我在处理您的调整请求时遇到了问题。请再详细描述一下您想如何修改这天的行程？"

/-- `node_refine_day(state)` (lines 893–1102): approval detection, the
media-rating branch, and the free-form LLM day-edit branch. -/
def nodeRefineDay (o : Oracles) (st : AgentState) : AgentState :=
  let messages := st.messages
  let currentDay := st.currentDayIndex.getD 0
  let totalDays := st.days.getD 3
  let lastMsg := lastUserMsg messages
  if isSatisfiedMsg lastMsg ∧ lastMsg.length < 20 then
    let st := { st with dayApproved := some true, currentDayIndex := some (currentDay + 1) }
    if (currentDay : ℤ) + 1 ≥ totalDays then
      { st with
        messages := messages ++ [⟨"assistant", completionMessage totalDays⟩]
        currentPhase := some "completed" }
    else
      { st with
        messages := messages ++ [⟨"assistant", transitionMessage currentDay⟩]
        currentPhase := some "generating_day" }
  else if isMediaRequest lastMsg then
    let destination := st.destination.getD "香港"
    let plans := st.itinerary.getD []
    let spotsToAnalyze :=
      match plans.get? currentDay with
      | some plan => extractSpotsToAnalyze destination plan.activities
      | Option.none => []
    if spotsToAnalyze.isEmpty then
      { st with messages := messages ++ [⟨"assistant", mediaNoSpotsMessage currentDay⟩] }
    else
      let results := spotsToAnalyze.filterMap (fun name => o.analyzeMedia name destination)
      let reply :=
        if results.isEmpty then mediaFailMessage currentDay spotsToAnalyze
        else mediaReportMessage currentDay results
      { st with messages := messages ++ [⟨"assistant", reply⟩] }
  else
    let destination := st.destination.getD "未知"
    let interests := st.interests.getD ["景点"]
    let plans := st.itinerary.getD []
    match plans.get? currentDay with
    | Option.none =>
      { st with messages := messages ++ [⟨"assistant", noCurrentDayPlanMessage⟩] }
    | some currentDayPlan =>
      match o.editParse (refineSystemPrompt destination interests currentDay currentDayPlan lastMsg) with
      | .badJson =>
        { st with messages := messages ++ [⟨"assistant", editErrorMessage⟩] }
      | .noMatch =>
        { st with messages := messages ++ [⟨"assistant", editNoJsonMessage currentDay⟩] }
      | .parsed fields =>
        if jlookupTruthy fields "no_change" then
          { st with messages := messages ++ [⟨"assistant", noChangeMessage currentDay⟩] }
        else if (jlookup fields "activities").isSome then
          { st with
            itinerary := some (plans.set currentDay (planOfJson fields))
            messages := messages ++ [⟨"assistant", editAppliedMessage currentDay⟩] }
        else
          { st with messages := messages ++ [⟨"assistant", editNeedDetailMessage currentDay⟩] }

/-! ## Deprecated whole-trip nodes (lines 878–890) -/

/-- `node_generate_plan`: redirects to the new flow. -/
def nodeGeneratePlan (o : Oracles) (st : AgentState) : Option AgentState :=
  (nodeInitializePlanning o st).map
    (fun st2 =>
      if st2.currentPhase = some "generating_day" then nodeGenerateSingleDay st2 else st2)

/-- `node_refine_plan`: redirects to `node_refine_day`. -/
def nodeRefinePlan (o : Oracles) (st : AgentState) : AgentState :=
  nodeRefineDay o st

/-! ## `process_user_message` (lines 1213–1279) -/

/-- The frontend-update payload (lines 1267–1277). -/
structure FrontendUpdates where
  updateItinerary : Option (List DayPlan) := Option.none
  updateFeaturedSpots : Option (List Spot) := Option.none
  updateHotActivities : Option (List (Option String × String)) := Option.none
  deriving DecidableEq, Repr

/-- `f"{v}"` for optional values (`None` prints as `"None"`). -/
def pyOptRepr (v : Option String) : String :=
  v.getD "None"

/-- `f"{v}"` for optional integers. -/
def pyOptIntRepr (v : Option ℤ) : String :=
  (v.map toString).getD "None"

/-- One entry of `updateHotActivities`: `(id, title-with-rank)`; the
constant `link="#"`, `hot=True` fields are elided. -/
def hotActivityOf (h : Hotspot) : Option String × String :=
  (h.id, pyOptRepr h.title ++ " (排名" ++ pyOptIntRepr h.rank ++ ")")

def frontendUpdatesOf (st : AgentState) : FrontendUpdates :=
  { updateItinerary := if st.itinerary.isSome then some (st.itinerary.getD []) else Option.none
    updateFeaturedSpots :=
      if (st.featuredSpots.getD []).isEmpty then Option.none else st.featuredSpots
    updateHotActivities :=
      if (st.cityHotspots.getD []).isEmpty then Option.none
      else some ((st.cityHotspots.getD []).map hotActivityOf) }

/-- The AI response returned to the caller (lines 1259–1264). -/
def aiResponseOf (st : AgentState) : String :=
  match st.messages.getLast? with
  | some m => if m.role = "assistant" then m.content else ""
  | Option.none => ""

/-- `process_user_message(user_message, state)` (lines 1213–1279): append
the user message, dispatch on the phase, and package the reply and the
frontend updates.  `none` models an uncaught exception escaping the turn
(only possible through the scoring pass inside initialization). -/
def processUserMessage (o : Oracles) (userMessage : String) (st0 : AgentState) :
    Option (AgentState × String × FrontendUpdates) :=
  let st := { st0 with messages := st0.messages ++ [⟨"user", userMessage⟩] }
  let phase := st.currentPhase.getD "greeting"
  let stFinal : Option AgentState :=
    if phase = "greeting" then some (nodeGreeting o st)
    else if phase = "gathering_info" then
      let st1 := nodeGatherInfo o st
      if st1.currentPhase = some "generating_day" then
        (nodeInitializePlanning o st1).map
          (fun st2 =>
            if st2.currentPhase = some "generating_day" then nodeGenerateSingleDay st2
            else st2)
      else some st1
    else if phase = "generating_day" then some (nodeGenerateSingleDay st)
    else if phase = "refining_day" then
      let st1 := nodeRefineDay o st
      some (if st1.currentPhase = some "generating_day" then nodeGenerateSingleDay st1 else st1)
    else if phase = "completed" then some (nodeRefineDay o st)
    else if phase = "generating_plan" then nodeGeneratePlan o st
    else if phase = "refining" then some (nodeRefinePlan o st)
    else some st
  stFinal.map (fun stF => (stF, aiResponseOf stF, frontendUpdatesOf stF))

/-! ## Lemmas: the stable sort -/

lemma pyInsertDescBy_perm {α : Type} (key : α → ℚ) (x : α) (l : List α) :
    (pyInsertDescBy key x l).Perm (x :: l) := by
  induction l with
  | nil => simp [pyInsertDescBy]
  | cons y ys ih =>
    simp only [pyInsertDescBy]
    split
    · exact (ih.cons y).trans (List.Perm.swap x y ys)
    · exact List.Perm.refl _

lemma pySortDescBy_perm {α : Type} (key : α → ℚ) (l : List α) :
    (pySortDescBy key l).Perm l := by
  induction l with
  | nil => simp [pySortDescBy]
  | cons x xs ih =>
    simp only [pySortDescBy, List.foldr_cons]
    exact (pyInsertDescBy_perm key x _).trans (ih.cons x)

lemma pyInsertDescBy_sorted {α : Type} (key : α → ℚ) (x : α) (l : List α)
    (h : l.Pairwise (fun a b => key b ≤ key a)) :
    (pyInsertDescBy key x l).Pairwise (fun a b => key b ≤ key a) := by
  induction l with
  | nil => simp [pyInsertDescBy]
  | cons y ys ih =>
    simp only [pyInsertDescBy]
    rcases h with _ | ⟨hy, hys⟩
    split
    · rename_i hlt
      refine List.Pairwise.cons ?_ (ih hys)
      intro b hb
      have hb' := (pyInsertDescBy_perm key x ys).mem_iff.mp hb
      rcases List.mem_cons.mp hb' with hb'' | hb''
      · subst hb''; exact le_of_lt hlt
      · exact hy b hb''
    · rename_i hge
      push_neg at hge
      refine List.Pairwise.cons ?_ (List.Pairwise.cons hy hys)
      intro b hb
      rcases List.mem_cons.mp hb with hb'' | hb''
      · subst hb''; exact hge
      · exact le_trans (hy b hb'') hge

lemma pySortDescBy_sorted {α : Type} (key : α → ℚ) (l : List α) :
    (pySortDescBy key l).Pairwise (fun a b => key b ≤ key a) := by
  induction l with
  | nil => simp [pySortDescBy]
  | cons x xs ih =>
    simp only [pySortDescBy, List.foldr_cons]
    exact pyInsertDescBy_sorted key x _ ih

/-- Stability of one insertion step: when the inserted element's index is
below every index already in the list, the "equal keys keep ascending
indices" invariant is preserved — skipped elements have strictly larger
keys, and everything the new element is placed before is indexed later. -/
lemma pyInsertDescBy_stable {α : Type} (key : α → ℚ) (idx : α → ℕ) (x : α)
    (l : List α)
    (hl : l.Pairwise (fun a b => key a = key b → idx a < idx b))
    (hx : ∀ y ∈ l, idx x < idx y) :
    (pyInsertDescBy key x l).Pairwise
      (fun a b => key a = key b → idx a < idx b) := by
  induction l with
  | nil => simp [pyInsertDescBy]
  | cons y ys ih =>
    simp only [pyInsertDescBy]
    rcases hl with _ | ⟨hy, hys⟩
    split
    · rename_i hlt
      refine List.Pairwise.cons ?_
        (ih hys (fun z hz => hx z (List.mem_cons_of_mem y hz)))
      intro b hb heq
      have hb' := (pyInsertDescBy_perm key x ys).mem_iff.mp hb
      rcases List.mem_cons.mp hb' with hb'' | hb''
      · subst hb''
        exact absurd heq (ne_of_gt hlt)
      · exact hy b hb'' heq
    · refine List.Pairwise.cons ?_ (List.Pairwise.cons hy hys)
      intro b hb _
      exact hx b hb

/-- Extensional stability of the embedded sort: on a list whose indices
ascend, tied elements of the output keep ascending indices — ties preserve
the input order, as Python's stable sort does. -/
lemma pySortDescBy_stable {α : Type} (key : α → ℚ) (idx : α → ℕ) (l : List α)
    (hl : l.Pairwise (fun a b => idx a < idx b)) :
    (pySortDescBy key l).Pairwise
      (fun a b => key a = key b → idx a < idx b) := by
  induction l with
  | nil => simp [pySortDescBy]
  | cons x xs ih =>
    simp only [pySortDescBy, List.foldr_cons]
    rcases hl with _ | ⟨hx, hxs⟩
    refine pyInsertDescBy_stable key idx x _ (ih hxs) ?_
    intro y hy
    exact hx y ((pySortDescBy_perm key xs).mem_iff.mp hy)

/-- Sorting index-carrying pairs by the key of the payload and then
dropping the indices is the same as sorting the payloads. -/
lemma pyInsertDescBy_map_snd {α : Type} (key : α → ℚ) (x : ℕ × α)
    (l : List (ℕ × α)) :
    (pyInsertDescBy (fun p => key p.2) x l).map Prod.snd
      = pyInsertDescBy key x.2 (l.map Prod.snd) := by
  induction l with
  | nil => simp [pyInsertDescBy]
  | cons y ys ih =>
    simp only [pyInsertDescBy, List.map_cons]
    split
    · simp [ih]
    · simp

lemma pySortDescBy_map_snd {α : Type} (key : α → ℚ) (l : List (ℕ × α)) :
    (pySortDescBy (fun p => key p.2) l).map Prod.snd
      = pySortDescBy key (l.map Prod.snd) := by
  induction l with
  | nil => simp [pySortDescBy]
  | cons x xs ih =>
    simp only [pySortDescBy, List.foldr_cons, List.map_cons] at ih ⊢
    rw [pyInsertDescBy_map_snd, ih]

lemma enumFrom_fst_le {α : Type} :
    ∀ (l : List α) (m : ℕ) (q : ℕ × α), q ∈ l.enumFrom m → m ≤ q.1 := by
  intro l
  induction l with
  | nil => intro m q hq; simp at hq
  | cons x xs ih =>
    intro m q hq
    rcases List.mem_cons.mp (by simpa [List.enumFrom] using hq) with h | h
    · subst h; exact le_rfl
    · exact le_trans (by omega) (ih (m + 1) q h)

lemma enumFrom_pairwise_fst {α : Type} :
    ∀ (l : List α) (n : ℕ), (l.enumFrom n).Pairwise (fun p q => p.1 < q.1) := by
  intro l
  induction l with
  | nil => intro n; simp
  | cons x xs ih =>
    intro n
    simp only [List.enumFrom]
    refine List.Pairwise.cons ?_ (ih (n + 1))
    intro q hq
    have := enumFrom_fst_le xs (n + 1) q hq
    simp only []
    omega

/-! ## Lemmas: the Balancer merge loop -/

lemma ratioMergeGoF_perm (r : ℚ) (t : ℕ) :
    ∀ fuel is os (used iu : ℕ), is.length + os.length ≤ fuel →
      (ratioMergeGoF r t fuel is os used iu).Perm (is ++ os) := by
  intro fuel
  induction fuel with
  | zero =>
    intro is os used iu h
    have his : is = [] := List.eq_nil_of_length_eq_zero (by omega)
    have hos : os = [] := List.eq_nil_of_length_eq_zero (by omega)
    subst his; subst hos
    simp [ratioMergeGoF]
  | succ fuel ih =>
    intro is os used iu h
    match is, os with
    | [], [] => simp [ratioMergeGoF]
    | i :: is', [] =>
      simp only [ratioMergeGoF]
      have := ih is' [] (used + 1) (iu + 1) (by simp at h ⊢; omega)
      simpa using this.cons i
    | [], o :: os' =>
      simp only [ratioMergeGoF]
      have := ih [] os' (used + 1) iu (by simp at h ⊢; omega)
      simpa using this.cons o
    | i :: is', o :: os' =>
      simp only [ratioMergeGoF]
      by_cases hc : iu < t ∧ (if used = 0 then (0 : ℚ) else (iu : ℚ) / (used : ℚ)) ≤ r
      · rw [if_pos hc]
        have := ih is' (o :: os') (used + 1) (iu + 1) (by simp at h ⊢; omega)
        simpa using this.cons i
      · rw [if_neg hc]
        have := (ih (i :: is') os' (used + 1) iu (by simp at h ⊢; omega)).cons o
        exact this.trans List.perm_middle.symm

lemma ratioMergeGo_perm (r : ℚ) (t : ℕ) (is os : List ScoredSpot) (used iu : ℕ) :
    (ratioMergeGo r t is os used iu).Perm (is ++ os) :=
  ratioMergeGoF_perm r t _ is os used iu le_rfl

/-- C3 helper: the Balancer output is a permutation of its input. -/
lemma applyInterestRatio_perm (spots : List ScoredSpot) (interests : List String)
    (r : ℚ) : (applyInterestRatio spots interests r).Perm spots := by
  unfold applyInterestRatio
  split
  · exact List.Perm.refl _
  · simp only [List.partition_eq_filter_filter]
    refine (ratioMergeGo_perm _ _ _ _ _ _).trans ?_
    exact List.filter_append_perm _ spots

/-- **C3**: for every input list and interest set, the Interest-Ratio
Balancer (`_apply_interest_ratio`, any `max_interest_ratio`, in particular
the default 0.6) returns a list of the same length with the same multiset of
elements — nothing is dropped or duplicated, only the order changes — and it
returns its input unchanged when the interest list or the input is empty. -/
theorem balancer_preserves_multiset (spots : List ScoredSpot)
    (interests : List String) (r : ℚ) :
    (applyInterestRatio spots interests r).length = spots.length ∧
    (applyInterestRatio spots interests r).Perm spots ∧
    (interests = [] → applyInterestRatio spots interests r = spots) ∧
    (spots = [] → applyInterestRatio spots interests r = spots) := by
  refine ⟨(applyInterestRatio_perm spots interests r).length_eq,
    applyInterestRatio_perm spots interests r, ?_, ?_⟩
  · intro h; subst h; simp [applyInterestRatio]
  · intro h; subst h; simp [applyInterestRatio]

/-- Witness for C3 at a concrete input (the implications discharged). -/
theorem balancer_preserves_multiset_witness :
    (applyInterestRatio [] ["美食"] (6/10)).length = 0 ∧
    ([] : List ScoredSpot) = [] ∧
    applyInterestRatio [] ["美食"] (6/10) = [] := by
  have h := balancer_preserves_multiset [] ["美食"] (6/10)
  exact ⟨h.1, rfl, h.2.2.2 rfl⟩

/-! ## Claim C5: prefix ratio bound of the Balancer -/

/-- The interest tagging the Balancer applies: its partition predicate, with
the falsy interest strings filtered out as in the source (line 125). -/
def balancerTag (interests : List String) (s : ScoredSpot) : Bool :=
  isInterestSpot (interests.filter (· ≠ "")) s

/-- The invariant actually maintained by the merge loop: as long as the
prefix has not exhausted the non-interest partition, the interest count can
exceed `r` times the prefix length by less than one spot.  `used`/`iu` carry
the already-emitted context; the bound is
`iu + count ≤ r * (used + L - 1) + 1`. -/
lemma ratioMergeGoF_prefix_bound (p : ScoredSpot → Bool) (r : ℚ) (t : ℕ)
    (hr0 : 0 < r) (hr1 : r < 1) :
    ∀ fuel (is os : List ScoredSpot) (used iu L : ℕ),
      is.length + os.length ≤ fuel →
      (∀ x ∈ is, p x = true) →
      (∀ x ∈ os, p x = false) →
      (iu : ℚ) ≤ r * ((used : ℚ) - 1) + 1 →
      ((ratioMergeGoF r t fuel is os used iu).take L).countP (fun x => !p x) < os.length →
      (iu : ℚ) + (((ratioMergeGoF r t fuel is os used iu).take L).countP p : ℚ)
        ≤ r * ((used : ℚ) + (L : ℚ) - 1) + 1 := by
  intro fuel
  induction fuel with
  | zero =>
    intro is os used iu L hfuel hp hq hinv hex
    have hos : os = [] := List.eq_nil_of_length_eq_zero (by omega)
    subst hos
    simp at hex
  | succ fuel ih =>
    intro is os used iu L hfuel hp hq hinv hex
    match is, os with
    | [], [] => simp at hex
    | i :: is', [] => simp at hex
    | [], o :: os' =>
      match L with
      | 0 =>
        simp only [List.take_zero, List.countP_nil, Nat.cast_zero, add_zero]
        nlinarith [hinv]
      | L' + 1 =>
        simp only [ratioMergeGoF, List.take_succ_cons, List.countP_cons] at hex ⊢
        rw [hq o (List.mem_cons_self o _)] at hex ⊢
        simp only [Bool.not_false, if_pos rfl, Bool.false_eq_true, if_false] at hex ⊢
        have hex' :
            ((ratioMergeGoF r t fuel [] os' (used + 1) iu).take L').countP (fun x => !p x)
              < os'.length := by
          simp at hex; omega
        have h2 := ih [] os' (used + 1) iu L' (by simp at hfuel ⊢; omega)
          (by simp) (fun x hx => hq x (List.mem_cons_of_mem o hx))
          (by push_cast; nlinarith [hinv]) hex'
        push_cast at h2 ⊢
        nlinarith [h2]
    | i :: is', o :: os' =>
      simp only [ratioMergeGoF] at hex ⊢
      by_cases hc : iu < t ∧ (if used = 0 then (0 : ℚ) else (iu : ℚ) / (used : ℚ)) ≤ r
      · rw [if_pos hc] at hex ⊢
        -- the emitted spot is an interest spot, justified by the ratio test
        have hiu1 : ((iu : ℚ) + 1) ≤ r * (used : ℚ) + 1 := by
          rcases hc with ⟨-, hratio⟩
          by_cases hu : used = 0
          · subst hu
            have : (iu : ℚ) < 1 := by
              have : (iu : ℚ) ≤ 1 - r := by push_cast at hinv ⊢; nlinarith [hinv]
              nlinarith [this]
            have : iu = 0 := by exact_mod_cast Nat.lt_one_iff.mp (by exact_mod_cast this)
            subst this
            simp
          · rw [if_neg hu] at hratio
            have hupos : (0 : ℚ) < (used : ℚ) :=
              Nat.cast_pos.mpr (Nat.pos_of_ne_zero hu)
            have := (div_le_iff₀ hupos).mp hratio
            nlinarith [this]
        match L with
        | 0 =>
          simp only [List.take_zero, List.countP_nil, Nat.cast_zero, add_zero]
          nlinarith [hinv]
        | L' + 1 =>
          simp only [List.take_succ_cons, List.countP_cons] at hex ⊢
          rw [hp i (List.mem_cons_self i _)] at hex ⊢
          simp only [Bool.not_true, Bool.false_eq_true, if_false] at hex ⊢
          have hex' :
              ((ratioMergeGoF r t fuel is' (o :: os') (used + 1) (iu + 1)).take L').countP
                  (fun x => !p x) < (o :: os').length := by
            simp at hex ⊢; omega
          have h2 := ih is' (o :: os') (used + 1) (iu + 1) L' (by simp at hfuel ⊢; omega)
            (fun x hx => hp x (List.mem_cons_of_mem i hx)) hq
            (by push_cast; nlinarith [hiu1]) hex'
          push_cast at h2 ⊢
          nlinarith [h2]
      · rw [if_neg hc] at hex ⊢
        match L with
        | 0 =>
          simp only [List.take_zero, List.countP_nil, Nat.cast_zero, add_zero]
          nlinarith [hinv]
        | L' + 1 =>
          simp only [List.take_succ_cons, List.countP_cons] at hex ⊢
          rw [hq o (List.mem_cons_self o _)] at hex ⊢
          simp only [Bool.not_false, if_pos rfl, Bool.false_eq_true, if_false] at hex ⊢
          have hex' :
              ((ratioMergeGoF r t fuel (i :: is') os' (used + 1) iu).take L').countP
                  (fun x => !p x) < os'.length := by
            simp at hex; omega
          have h2 := ih (i :: is') os' (used + 1) iu L' (by simp at hfuel ⊢; omega)
            hp (fun x hx => hq x (List.mem_cons_of_mem o hx))
            (by push_cast; nlinarith [hinv]) hex'
          push_cast at h2 ⊢
          nlinarith [h2]

/-- The balanced output contains exactly as many non-interest spots as the
non-interest partition. -/
lemma applyInterestRatio_countP_not (spots : List ScoredSpot)
    (interests : List String) (r : ℚ) :
    (applyInterestRatio spots interests r).countP (fun s => !balancerTag interests s)
      = spots.countP (fun s => !balancerTag interests s) :=
  (applyInterestRatio_perm spots interests r).countP_eq _

/-- **C5 (amended)**: in every prefix of the balanced output that still
leaves some non-interest spot outside the prefix (and whose length satisfies
the `length × 0.6 ≥ 1` gate), the number of interest-tagged spots is at most
`0.6 × (L − 1) + 1` — the 0.6 fraction can be exceeded, but by less than one
spot. -/
theorem balancer_ratio_bound_amended (spots : List ScoredSpot)
    (interests : List String) (L : ℕ)
    (hgate : 1 ≤ (L : ℚ) * (6/10))
    (hnotex : ((applyInterestRatio spots interests (6/10)).take L).countP
        (fun s => !balancerTag interests s)
      < (applyInterestRatio spots interests (6/10)).countP
        (fun s => !balancerTag interests s)) :
    (((applyInterestRatio spots interests (6/10)).take L).countP
        (balancerTag interests) : ℚ)
      ≤ (6/10) * ((L : ℚ) - 1) + 1 := by
  rw [applyInterestRatio_countP_not] at hnotex
  unfold applyInterestRatio at hnotex ⊢
  by_cases htop : spots.isEmpty || interests.isEmpty
  · rw [if_pos htop] at hnotex ⊢
    -- the no-op branch: either no spots (counts are zero) or no interests
    -- (nothing is tagged); the bound is immediate
    rcases Bool.or_eq_true_iff.mp htop with he | he
    · rw [List.isEmpty_iff.mp he]
      simp
      nlinarith [hgate]
    · have : interests = [] := List.isEmpty_iff.mp he
      subst this
      have : balancerTag [] = fun _ => false := by
        funext s; simp [balancerTag, isInterestSpot]
      rw [this]
      simp
      nlinarith [hgate]
  · rw [if_neg htop] at hnotex ⊢
    simp only [List.partition_eq_filter_filter] at hnotex ⊢
    set p := isInterestSpot (interests.filter (· ≠ "")) with hp
    have hptag : balancerTag interests = p := rfl
    rw [hptag] at hnotex ⊢
    set is := spots.filter p with his
    set os := spots.filter (not ∘ p) with hos
    have hcount : spots.countP (fun s => !p s) = os.length := by
      rw [hos]
      simp [List.countP_eq_length_filter]
      congr 1
    rw [hcount] at hnotex
    rw [ratioMergeGo] at hnotex ⊢
    have hb := ratioMergeGoF_prefix_bound p (6/10) _ (by norm_num) (by norm_num)
      (is.length + os.length) is os 0 0 L le_rfl
      (fun x hx => (List.mem_filter.mp hx).2)
      (fun x hx => by
        have := (List.mem_filter.mp hx).2
        simpa using this)
      (by norm_num) hnotex
    simpa using hb

/-- The concrete 5-spot input exercised by C5: three interest-tagged spots
(category "A") followed by two others (category "B"). -/
def c5Spots : List ScoredSpot :=
  [⟨{ title := some "a", category := some "A" }, 0⟩,
   ⟨{ title := some "b", category := some "A" }, 0⟩,
   ⟨{ title := some "c", category := some "A" }, 0⟩,
   ⟨{ title := some "d", category := some "B" }, 0⟩,
   ⟨{ title := some "e", category := some "B" }, 0⟩]

/-- Evaluation of the Balancer on `c5Spots`: `int(5 × 0.6) = 3`, and the
loop emits interest, other, interest, other, interest. -/
lemma c5Eval :
    applyInterestRatio c5Spots ["A"] (6/10)
      = [⟨{ title := some "a", category := some "A" }, 0⟩,
         ⟨{ title := some "d", category := some "B" }, 0⟩,
         ⟨{ title := some "b", category := some "A" }, 0⟩,
         ⟨{ title := some "e", category := some "B" }, 0⟩,
         ⟨{ title := some "c", category := some "A" }, 0⟩] := by
  norm_num [c5Spots, applyInterestRatio, ratioMergeGo, ratioMergeGoF, isInterestSpot,
    pyStrIn, List.partition, Rat.floor]

/-- **C5, counterexample**: on `c5Spots` the prefix of length 3 of the
balanced output satisfies the claim's side conditions (gate `3 × 0.6 ≥ 1`;
a non-interest spot remains outside the prefix) yet holds 2 interest spots,
and `2/3 > 0.6` — the claimed `≤ 0.6` fraction bound is false. -/
theorem balancer_ratio_bound_counterexample :
    1 ≤ (3 : ℚ) * (6/10) ∧
    ((applyInterestRatio c5Spots ["A"] (6/10)).take 3).countP
        (fun s => !balancerTag ["A"] s)
      < (applyInterestRatio c5Spots ["A"] (6/10)).countP
        (fun s => !balancerTag ["A"] s) ∧
    ¬ ((((applyInterestRatio c5Spots ["A"] (6/10)).take 3).countP
          (balancerTag ["A"]) : ℚ)
        ≤ (6/10) * (3 : ℚ)) := by
  have h2 : ((applyInterestRatio c5Spots ["A"] (6/10)).take 3).countP
      (balancerTag ["A"]) = 2 := by
    rw [c5Eval]; decide
  refine ⟨by norm_num, ?_, ?_⟩
  · rw [c5Eval]; decide
  · rw [h2]; norm_num

/-- Witness for C5 (amended) at `c5Spots`, prefix length 3: the hypotheses
hold and the amended bound `2 ≤ 0.6 × 2 + 1` follows by the theorem. -/
theorem balancer_ratio_bound_amended_witness :
    (1 ≤ (3 : ℚ) * (6/10) ∧
      ((applyInterestRatio c5Spots ["A"] (6/10)).take 3).countP
          (fun s => !balancerTag ["A"] s)
        < (applyInterestRatio c5Spots ["A"] (6/10)).countP
          (fun s => !balancerTag ["A"] s)) ∧
    (((applyInterestRatio c5Spots ["A"] (6/10)).take 3).countP
        (balancerTag ["A"]) : ℚ)
      ≤ (6/10) * ((3 : ℚ) - 1) + 1 := by
  have hnotex : ((applyInterestRatio c5Spots ["A"] (6/10)).take 3).countP
      (fun s => !balancerTag ["A"] s)
    < (applyInterestRatio c5Spots ["A"] (6/10)).countP
      (fun s => !balancerTag ["A"] s) := by
    rw [c5Eval]; decide
  exact ⟨⟨by norm_num, hnotex⟩,
    by exact_mod_cast balancer_ratio_bound_amended c5Spots ["A"] 3 (by norm_num) hnotex⟩

/-! ## Lemmas: the Day Allocator -/

lemma argminIdx_lt (l : List ℕ) (h : l ≠ []) : argminIdx l < l.length := by
  match l with
  | [x] => simp [argminIdx]
  | x :: y :: rest =>
    simp only [argminIdx]
    split
    · simp
    · have := argminIdx_lt (y :: rest) (by simp)
      simpa [Nat.succ_lt_succ_iff] using this

lemma argminIdx_le (l : List ℕ) (k : ℕ) (hk : k < l.length) :
    l.getD (argminIdx l) 0 ≤ l.getD k 0 := by
  match l with
  | [] => simp at hk
  | [x] =>
    match k with
    | 0 => simp [argminIdx]
    | k + 1 => simp at hk
  | x :: y :: rest =>
    simp only [argminIdx]
    split
    · rename_i hle
      match k with
      | 0 => simp
      | k + 1 =>
        have hk' : k < (y :: rest).length := by simpa using hk
        have := argminIdx_le (y :: rest) k hk'
        calc (x :: y :: rest).getD 0 0 = x := rfl
          _ ≤ (y :: rest).getD (argminIdx (y :: rest)) 0 := hle
          _ ≤ (y :: rest).getD k 0 := this
          _ = (x :: y :: rest).getD (k + 1) 0 := rfl
    · rename_i hgt
      push_neg at hgt
      match k with
      | 0 =>
        have := le_of_lt hgt
        simpa [List.getD] using this
      | k + 1 =>
        have hk' : k < (y :: rest).length := by simpa using hk
        have := argminIdx_le (y :: rest) k hk'
        simpa [List.getD] using this

lemma argminBy_mem (hours : List ℕ) (c : ℕ) (cs : List ℕ) :
    argminBy hours (c :: cs) ∈ c :: cs := by
  match cs with
  | [] => simp [argminBy]
  | d :: ds =>
    simp only [argminBy]
    split
    · simp
    · have := argminBy_mem hours d ds
      simp [List.mem_cons] at this ⊢
      tauto

/-- C2 core: `chooseDayIdx` always returns a valid day index. -/
lemma chooseDayIdx_lt (hours : List ℕ) (dur : ℕ) (h : hours ≠ []) :
    chooseDayIdx hours dur < hours.length := by
  simp only [chooseDayIdx]
  split
  · split
    · exact argminIdx_lt hours h
    · rename_i hne
      have hcs : ¬(List.filter (fun i => decide (hours.getD i 0 + dur ≤ 9))
          (List.range hours.length)).isEmpty := by simpa using hne
      match hmatch : List.filter (fun i => decide (hours.getD i 0 + dur ≤ 9))
          (List.range hours.length) with
      | [] => rw [hmatch] at hcs; simp at hcs
      | c :: cs =>
        have hmem := argminBy_mem hours c cs
        rw [← hmatch] at hmem
        have := List.mem_filter.mp hmem
        have hlt := List.mem_range.mp this.1
        rw [hmatch] at hlt
        exact hlt
  · exact argminIdx_lt hours h

/-- Appending one element inside one cell of a list of lists is, up to
permutation, a `cons` on the flattened list. -/
lemma flatten_set_append {α : Type} (B : List (List α)) (i : ℕ)
    (h : i < B.length) (s : α) :
    (B.set i (B.getD i [] ++ [s])).flatten.Perm (s :: B.flatten) := by
  induction B generalizing i with
  | nil => simp at h
  | cons b bs ih =>
    match i with
    | 0 =>
      simp only [List.set_cons_zero, List.getD_cons_zero, List.flatten_cons]
      have : (b ++ [s]) ++ bs.flatten = b ++ s :: bs.flatten := by simp
      rw [this]
      exact List.perm_middle
    | i + 1 =>
      simp only [List.set_cons_succ, List.getD_cons_succ, List.flatten_cons]
      have hi : i < bs.length := by simpa using h
      have := (ih i hi).append_left b
      refine this.trans ?_
      exact List.perm_middle

/-- The greedy loop invariant: bucket and hour lists keep their length, and
the flattened buckets accumulate exactly the processed spots. -/
lemma splitStep_fold_invariant (spots : List Spot) :
    ∀ (buckets : List (List Spot)) (hours : List ℕ),
      buckets.length = hours.length → hours ≠ [] →
      ((spots.foldl splitStep (buckets, hours)).1.length = buckets.length ∧
       (spots.foldl splitStep (buckets, hours)).2.length = hours.length ∧
       (spots.foldl splitStep (buckets, hours)).1.flatten.Perm
         (spots ++ buckets.flatten)) := by
  induction spots with
  | nil => intro buckets hours hlen hne; simp
  | cons s rest ih =>
    intro buckets hours hlen hne
    simp only [List.foldl_cons]
    have hidx : chooseDayIdx hours (estimateDurationHours s) < hours.length :=
      chooseDayIdx_lt hours _ hne
    have hidxB : chooseDayIdx hours (estimateDurationHours s) < buckets.length := by
      omega
    set idx := chooseDayIdx hours (estimateDurationHours s) with hidxdef
    have hstep : splitStep (buckets, hours) s
        = (buckets.set idx (buckets.getD idx [] ++ [s]),
           hours.set idx (hours.getD idx 0 + estimateDurationHours s)) := rfl
    rw [hstep]
    have hlen' : (buckets.set idx (buckets.getD idx [] ++ [s])).length
        = (hours.set idx (hours.getD idx 0 + estimateDurationHours s)).length := by
      simp [hlen]
    have hne' : hours.set idx (hours.getD idx 0 + estimateDurationHours s) ≠ [] := by
      intro hcon
      have hlen0 := congrArg List.length hcon
      simp at hlen0
      exact hne hlen0
    obtain ⟨h1, h2, h3⟩ := ih _ _ hlen' hne'
    refine ⟨by simpa using h1, by simpa using h2, ?_⟩
    refine h3.trans ?_
    have hperm := flatten_set_append buckets idx hidxB s
    exact (hperm.append_left rest).trans List.perm_middle

/-- **C2**: the Day Allocator — `_split_spots_by_day` behind
`generate_itinerary`'s coercion of nonpositive day counts to 1
(lines 441–442) — returns exactly the coerced number of buckets, conserves
the total element count, and every input spot lands in exactly one bucket
(the flattened buckets are a permutation of the input). -/
theorem allocator_conserves_spots (spots : List Spot) (dayCount : ℤ) :
    (allocate spots dayCount).length = (if dayCount ≤ 0 then 1 else dayCount).toNat ∧
    ((allocate spots dayCount).map List.length).sum = spots.length ∧
    (allocate spots dayCount).flatten.Perm spots := by
  have hpos : ¬((if dayCount ≤ 0 then 1 else dayCount) ≤ 0) := by
    split <;> omega
  unfold allocate splitSpotsByDay
  rw [if_neg hpos]
  set d := (if dayCount ≤ 0 then 1 else dayCount).toNat with hd
  have hd1 : 1 ≤ d := by
    rw [hd]; split <;> omega
  have hinv := splitStep_fold_invariant spots (List.replicate d [])
    (List.replicate d 0) (by simp) (by
      intro hcon
      have := congrArg List.length hcon
      simp at this
      omega)
  obtain ⟨h1, _, h3⟩ := hinv
  have h3' : (spots.foldl splitStep (List.replicate d [], List.replicate d 0)).1.flatten.Perm
      spots := by
    refine h3.trans ?_
    have : (List.replicate d ([] : List Spot)).flatten = [] := by
      simp [List.flatten_eq_nil_iff]
    rw [this, List.append_nil]
  refine ⟨by simpa using h1, ?_, h3'⟩
  have := h3'.length_eq
  simpa [List.length_flatten] using this

/-! ## Claim C6: the overflow exception of the greedy allocator -/

/-- **C6**: during greedy day allocation, whenever the minimum-hours day
would exceed 9 accumulated hours after adding the current spot and at least
one other day is under 7 accumulated hours, the chosen day is an under-7 day
of least accumulated hours.  (Under these conditions the candidate filter
`hours[i] + dur ≤ 9` of lines 204–206 is provably empty, so the
minimum-hours day itself is kept — and it is exactly the least-hours
under-7 day.) -/
theorem allocator_overflow_exception (hours : List ℕ) (dur : ℕ)
    (_hne : hours ≠ [])
    (hover : hours.getD (argminIdx hours) 0 + dur > 9)
    (hunder : ∃ j, j < hours.length ∧ j ≠ argminIdx hours ∧ hours.getD j 0 < 7) :
    hours.getD (chooseDayIdx hours dur) 0 < 7 ∧
    ∀ k, k < hours.length → hours.getD k 0 < 7 →
      hours.getD (chooseDayIdx hours dur) 0 ≤ hours.getD k 0 := by
  obtain ⟨j, hj, hjne, hj7⟩ := hunder
  have hjmem : hours.getD j 0 ∈ hours := by
    rw [List.getD_eq_getElem?_getD, List.getElem?_eq_getElem hj]
    exact List.getElem_mem hj
  have hany : (hours.any fun x => decide (x < 7)) = true := by
    rw [List.any_eq_true]
    exact ⟨hours.getD j 0, hjmem, by simpa using hj7⟩
  have hempty :
      (List.range hours.length).filter (fun i => decide (hours.getD i 0 + dur ≤ 9))
        = [] := by
    rw [List.filter_eq_nil_iff]
    intro i hi
    have hi' := List.mem_range.mp hi
    have hmin := argminIdx_le hours i hi'
    simp only [decide_eq_true_eq]
    omega
  have hchoose : chooseDayIdx hours dur = argminIdx hours := by
    simp only [chooseDayIdx]
    rw [if_pos ⟨hover, hany⟩, hempty]
    simp
  rw [hchoose]
  constructor
  · exact lt_of_le_of_lt (argminIdx_le hours j hj) hj7
  · intro k hk _
    exact argminIdx_le hours k hk

/-- Witness for C6 at `hours = [6, 6, 8]`, `dur = 4`: the exception
conditions hold (the minimum day has 6 hours, 6 + 4 > 9, and another day is
under 7) and the theorem yields the under-7 least-hours conclusion. -/
theorem allocator_overflow_exception_witness :
    (([6, 6, 8] : List ℕ) ≠ [] ∧
      ([6, 6, 8] : List ℕ).getD (argminIdx [6, 6, 8]) 0 + 4 > 9 ∧
      (∃ j, j < ([6, 6, 8] : List ℕ).length ∧ j ≠ argminIdx [6, 6, 8] ∧
        ([6, 6, 8] : List ℕ).getD j 0 < 7)) ∧
    (([6, 6, 8] : List ℕ).getD (chooseDayIdx [6, 6, 8] 4) 0 < 7 ∧
      ∀ k, k < ([6, 6, 8] : List ℕ).length → ([6, 6, 8] : List ℕ).getD k 0 < 7 →
        ([6, 6, 8] : List ℕ).getD (chooseDayIdx [6, 6, 8] 4) 0
          ≤ ([6, 6, 8] : List ℕ).getD k 0) :=
  ⟨⟨by decide, by decide, ⟨1, by decide, by decide, by decide⟩⟩,
    allocator_overflow_exception [6, 6, 8] 4 (by decide) (by decide)
      ⟨1, by decide, by decide, by decide⟩⟩

/-! ## Claim C1: the Scoring Engine -/

/-- The per-spot score exactly as the claim's sentence words it
(specification side): `r` is the stored rating whenever a rating number is
present, 4.5 when absent; the bonus fires when some interest string (no
nonemptiness requirement) occurs as a substring of category or title. -/
def specC1Score (interests : List String) (budget : String) (idx : ℕ)
    (s : Spot) : ℚ :=
  let r : ℚ :=
    match s.rating with
    | some (.num q) => q
    | _ => 9/2
  let bonus : ℚ :=
    if interests.any (fun it =>
        pyStrIn it (s.category.getD "") || pyStrIn it (s.title.getD ""))
    then 1 else 0
  let pop : ℚ :=
    if 1 - (idx : ℚ) * (5/100) ≤ 3/10 then 3/10 else 1 - (idx : ℚ) * (5/100)
  let f : ℚ :=
    if budget = "高" then 105/100 else if budget = "低" then 95/100 else 1
  (r * (6/10) + bonus * (3/10) + pop * (1/10)) * f

/-- The output the claim predicts: every spot scored by `specC1Score` at its
input position, sorted descending with ties preserving input order (the
unique stable descending order). -/
def specC1Sorted (spots : List Spot) (interests : List String)
    (budget : String) : List ScoredSpot :=
  pySortDescBy ScoredSpot.score
    (spots.enum.map (fun p => ⟨p.2, specC1Score interests budget p.1 p.2⟩))

/-- The per-spot score the code actually computes (amended claim): `r` is
the stored rating when present and truthy (a nonzero number), 4.5 when the
key is absent or its value falsy; the bonus additionally requires a nonempty
interest string. -/
def specC1AmendedScore (interests : List String) (budget : String) (idx : ℕ)
    (s : Spot) : ℚ :=
  let rv := pyOr (s.rating.getD (.num (9/2))) (.num (9/2))
  let r : ℚ :=
    match rv with
    | .num q => q
    | _ => 9/2   -- only reachable for a truthy string rating, excluded by C1's hypothesis
  let bonus : ℚ :=
    if interests.any (fun it =>
        it ≠ "" && (pyStrIn it (s.category.getD "") || pyStrIn it (s.title.getD "")))
    then 1 else 0
  let pop : ℚ :=
    if 1 - (idx : ℚ) * (5/100) ≤ 3/10 then 3/10 else 1 - (idx : ℚ) * (5/100)
  let f : ℚ :=
    if budget = "高" then 105/100 else if budget = "低" then 95/100 else 1
  (r * (6/10) + bonus * (3/10) + pop * (1/10)) * f

/-- The amended claim's predicted output. -/
def specC1AmendedSorted (spots : List Spot) (interests : List String)
    (budget : String) : List ScoredSpot :=
  pySortDescBy ScoredSpot.score
    (spots.enum.map (fun p => ⟨p.2, specC1AmendedScore interests budget p.1 p.2⟩))

/-- The amended claim's predicted output with input positions carried
through the sort, used to state tie-stability extensionally: dropping the
positions recovers `specC1AmendedSorted`, and tied scores keep ascending
positions. -/
def specC1AmendedIndexed (spots : List Spot) (interests : List String)
    (budget : String) : List (ℕ × ScoredSpot) :=
  pySortDescBy (fun p => p.2.score)
    (spots.enum.map
      (fun p => (p.1, ⟨p.2, specC1AmendedScore interests budget p.1 p.2⟩)))

/-- Rating values Python's `float(...)` conversion cannot raise on: key
absent, `None`, or a number. -/
def ratingNonStr (s : Spot) : Prop :=
  s.rating = Option.none ∨ s.rating = some .none ∨ ∃ q, s.rating = some (.num q)

lemma scoreOf_eq_amended (interests : List String) (budget : String) (idx : ℕ)
    (s : Spot) (h : ratingNonStr s) :
    scoreOf interests budget idx s
      = some (specC1AmendedScore interests budget idx s) := by
  rcases h with h | h | ⟨q, h⟩
  · simp [scoreOf, specC1AmendedScore, h, pyOr, pyTruthy, pyFloat]
  · simp [scoreOf, specC1AmendedScore, h, pyOr, pyTruthy, pyFloat]
  · by_cases hq : q = 0
    · subst hq
      simp [scoreOf, specC1AmendedScore, h, pyOr, pyTruthy, pyFloat]
    · simp [scoreOf, specC1AmendedScore, h, pyOr, pyTruthy, pyFloat, hq]

lemma scoreLoop_eq_amended (interests : List String) (budget : String) :
    ∀ (spots : List Spot) (n : ℕ), (∀ s ∈ spots, ratingNonStr s) →
      scoreLoop interests budget n spots
        = some ((spots.enumFrom n).map
            (fun p => ⟨p.2, specC1AmendedScore interests budget p.1 p.2⟩)) := by
  intro spots
  induction spots with
  | nil => intro n _; simp [scoreLoop]
  | cons s rest ih =>
    intro n h
    rw [scoreLoop, scoreOf_eq_amended interests budget n s (h s (List.mem_cons_self s _)),
      ih (n + 1) (fun x hx => h x (List.mem_cons_of_mem _ hx))]
    simp [List.enumFrom]

/-- **C1 (amended)**: on inputs whose ratings are absent, `None`, or
numeric, the Scoring Engine succeeds and returns exactly the spots scored by
`(0.6·r + 0.3·bonus + 0.1·max(0.3, 1 − 0.05·idx)) · f` — with `r` the rating
when present and nonzero, 4.5 otherwise, and the bonus requiring a nonempty
interest substring — in stable descending score order: the output is sorted
descending, is a permutation of the scored input, and ties preserve the
input order (carrying the input positions through the sort, the output is
position-erasure of an indexed list in which any two tied elements keep
strictly ascending input positions). -/
theorem scoring_engine_amended (spots : List Spot) (interests : List String)
    (budget : String) (h : ∀ s ∈ spots, ratingNonStr s) :
    scoreAndSortSpots spots interests budget
        = some (specC1AmendedSorted spots interests budget) ∧
    (specC1AmendedSorted spots interests budget).Pairwise
      (fun a b => b.score ≤ a.score) ∧
    (specC1AmendedSorted spots interests budget).Perm
      (spots.enum.map
        (fun p => ⟨p.2, specC1AmendedScore interests budget p.1 p.2⟩)) ∧
    specC1AmendedSorted spots interests budget
      = (specC1AmendedIndexed spots interests budget).map Prod.snd ∧
    (specC1AmendedIndexed spots interests budget).Pairwise
      (fun p q => p.2.score = q.2.score → p.1 < q.1) := by
  refine ⟨?_, pySortDescBy_sorted _ _, pySortDescBy_perm _ _, ?_, ?_⟩
  · unfold scoreAndSortSpots specC1AmendedSorted
    split
    · rename_i he
      rw [List.isEmpty_iff.mp he]
      simp [pySortDescBy]
    · rw [scoreLoop_eq_amended interests budget spots 0 h]
      simp [List.enum]
  · unfold specC1AmendedSorted specC1AmendedIndexed
    rw [pySortDescBy_map_snd ScoredSpot.score]
    congr 1
    simp [List.map_map, Function.comp]
  · have hidx : (spots.enum.map
        (fun p => ((p.1 : ℕ),
          (⟨p.2, specC1AmendedScore interests budget p.1 p.2⟩ : ScoredSpot)))).Pairwise
        (fun a b => a.1 < b.1) := by
      rw [List.pairwise_map]
      simpa [List.enum] using enumFrom_pairwise_fst spots 0
    exact pySortDescBy_stable (fun p => p.2.score) Prod.fst _ hidx

/-- The concrete spots exercised by C1's counterexample and witness. -/
def c1Spot0 : Spot :=
  { category := some "C", title := some "D", rating := some (.num 0) }

def c1Spot4 : Spot :=
  { category := some "C", title := some "D", rating := some (.num 4) }

/-- Witness for C1 (amended): a one-spot input with a numeric rating. -/
theorem scoring_engine_amended_witness :
    (∀ s ∈ [c1Spot4], ratingNonStr s) ∧
    scoreAndSortSpots [c1Spot4] ["C"] "高"
      = some (specC1AmendedSorted [c1Spot4] ["C"] "高") := by
  have h : ∀ s ∈ [c1Spot4], ratingNonStr s := by
    intro s hs
    rw [List.mem_singleton.mp hs]
    exact Or.inr (Or.inr ⟨4, rfl⟩)
  exact ⟨h, (scoring_engine_amended _ _ _ h).1⟩

/-- **C1, counterexample**: the claim's formula disagrees with the code on
(1) a spot whose rating field holds the number 0 (the code falls back to 4.5
via Python falsiness; the claim says `r = 0`), and (2) an empty interest
string (a substring of everything, so the claim's bonus fires; the code
skips falsy interests). -/
theorem scoring_engine_counterexample :
    scoreAndSortSpots [c1Spot0] [] "中" ≠ some (specC1Sorted [c1Spot0] [] "中") ∧
    scoreAndSortSpots [c1Spot4] [""] "中" ≠ some (specC1Sorted [c1Spot4] [""] "中") := by
  constructor
  · have h1 : scoreAndSortSpots [c1Spot0] [] "中" = some [⟨c1Spot0, 14/5⟩] := by
      norm_num [c1Spot0, scoreAndSortSpots, scoreLoop, scoreOf, pyFloat, pyOr, pyTruthy,
        pySortDescBy, pyInsertDescBy]
      simp
    have h2 : specC1Sorted [c1Spot0] [] "中" = [⟨c1Spot0, 1/10⟩] := by
      norm_num [c1Spot0, specC1Sorted, specC1Score, List.enum, pySortDescBy, pyInsertDescBy]
      simp
    rw [h1, h2]
    intro hcon
    simp only [Option.some.injEq, List.cons.injEq, ScoredSpot.mk.injEq] at hcon
    have := hcon.1.2
    norm_num at this
  · have h1 : scoreAndSortSpots [c1Spot4] [""] "中" = some [⟨c1Spot4, 5/2⟩] := by
      norm_num [c1Spot4, scoreAndSortSpots, scoreLoop, scoreOf, pyFloat, pyOr, pyTruthy,
        pySortDescBy, pyInsertDescBy]
      simp
    have h2 : specC1Sorted [c1Spot4] [""] "中" = [⟨c1Spot4, 14/5⟩] := by
      norm_num [c1Spot4, specC1Sorted, specC1Score, List.enum, pySortDescBy, pyInsertDescBy,
        pyStrIn]
      simp
    rw [h1, h2]
    intro hcon
    simp only [Option.some.injEq, List.cons.injEq, ScoredSpot.mk.injEq] at hcon
    have := hcon.1.2
    norm_num at this

/-! ## Claim C8: ratings that cannot convert -/

/-- **C8, counterexample**: a spot whose rating field holds the non-numeric
string `"abc"` makes the Scoring Engine raise (Python:
`float("abc" or 4.5)` = `float("abc")` → `ValueError`): the run fails
instead of scoring the spot with the default 4.5. -/
theorem scoring_default_rating_counterexample :
    scoreAndSortSpots [{ rating := some (.str "abc") }] [] "中" = Option.none ∧
    (Option.none : Option (List ScoredSpot))
      ≠ some [⟨{ rating := some (.str "abc") },
          specC1AmendedScore [] "中" 0 { rating := some (.str "abc") }⟩] := by
  constructor
  · simp [scoreAndSortSpots, scoreLoop, scoreOf, pyFloat, pyOr, pyTruthy, pyFloatOfString,
      pyStrip, wsDropChars, parseFloatDigits]
  · simp

/-- **C8 (amended)**: when a spot's rating is absent or falsy (`None`, `0`,
`""`) the Scoring Engine does not fail on it and scores it with the default
rating 4.5; a truthy non-numeric string, by contrast, raises (see the
counterexample). -/
theorem scoring_default_rating_amended (interests : List String)
    (budget : String) (idx : ℕ) (s : Spot)
    (h : s.rating = Option.none ∨ s.rating = some .none ∨
      s.rating = some (.num 0) ∨ s.rating = some (.str "")) :
    scoreOf interests budget idx s
        = some (specC1AmendedScore interests budget idx s) ∧
    specC1AmendedScore interests budget idx s
      = ((9/2) * (6/10)
          + (if interests.any (fun it =>
              it ≠ "" && (pyStrIn it (s.category.getD "")
                || pyStrIn it (s.title.getD ""))) then (1 : ℚ) else 0) * (3/10)
          + (if 1 - (idx : ℚ) * (5/100) ≤ 3/10 then (3 : ℚ)/10
              else 1 - (idx : ℚ) * (5/100)) * (1/10))
        * (if budget = "高" then (105 : ℚ)/100
            else if budget = "低" then 95/100 else 1) := by
  rcases h with h | h | h | h <;>
    exact ⟨by simp [scoreOf, specC1AmendedScore, h, pyOr, pyTruthy, pyFloat,
        pyFloatOfString, pyStrip, wsDropChars],
      by simp [specC1AmendedScore, h, pyOr, pyTruthy]⟩

/-- Witness for C8 (amended) at a spot whose rating field holds 0. -/
theorem scoring_default_rating_amended_witness :
    (({ rating := some (.num 0) } : Spot).rating = Option.none ∨
      ({ rating := some (.num 0) } : Spot).rating = some .none ∨
      ({ rating := some (.num 0) } : Spot).rating = some (.num 0) ∨
      ({ rating := some (.num 0) } : Spot).rating = some (.str "")) ∧
    scoreOf [] "中" 0 { rating := some (.num 0) }
      = some (specC1AmendedScore [] "中" 0 { rating := some (.num 0) }) :=
  ⟨Or.inr (Or.inr (Or.inl rfl)),
    (scoring_default_rating_amended [] "中" 0 { rating := some (.num 0) }
      (Or.inr (Or.inr (Or.inl rfl)))).1⟩

/-! ## Claim C7: summarizer / timeline round-trip -/

lemma summaryFold_fst (spots : List Spot) :
    ∀ acc : ℕ × List (String × ℕ),
      (spots.foldl
        (fun acc s =>
          (acc.1 + estimateDurationHours s, bumpCount acc.2 (s.category.getD "其他")))
        acc).1
      = acc.1 + (spots.map estimateDurationHours).sum := by
  induction spots with
  | nil => intro acc; simp
  | cons s rest ih =>
    intro acc
    simp only [List.foldl_cons, List.map_cons, List.sum_cons]
    rw [ih]
    omega

/-- For a nonempty bucket the summarizer's `total_hours` is the sum of the
per-spot estimated durations over the whole bucket. -/
lemma buildDayThemeSummary_totalHours (bucket : List Spot) (dest : String)
    (h : bucket ≠ []) :
    (buildDayThemeSummary bucket dest).totalHours
      = (bucket.map estimateDurationHours).sum := by
  unfold buildDayThemeSummary
  rw [if_neg (by simpa using h)]
  simp only [summaryFold]
  rw [summaryFold_fst bucket (0, [])]
  simp

/-- The bucket of four 4-hour spots on which the timeline builder runs out
of clock: 9→13→17→21, and the fourth spot is dropped. -/
def c7Bucket : List Spot :=
  [{ title := some "a", category := some "户外" },
   { title := some "b", category := some "户外" },
   { title := some "c", category := some "户外" },
   { title := some "d", category := some "户外" }]

/-- **C7, counterexample**: on `c7Bucket` the summarizer reports 16 hours
(the whole bucket), but the Timeline Builder only emits activities for the
first three spots (the clock reaches 21:00), whose estimated durations sum
to 12 — the claimed equality fails. -/
theorem summarizer_roundtrip_counterexample :
    (buildDayThemeSummary c7Bucket "X").totalHours = 16 ∧
    spotActivityCount (buildDayTimeline 0 "X" c7Bucket "中") = 3 ∧
    (buildDayThemeSummary c7Bucket "X").totalHours
      ≠ (((c7Bucket.take
            (spotActivityCount (buildDayTimeline 0 "X" c7Bucket "中"))).map
          estimateDurationHours).sum) := by
  refine ⟨by decide, by decide, by decide⟩

/-- **C7 (amended)**: for every nonempty day bucket all of whose spots
receive an activity (the Timeline Builder emits one spot activity per bucket
entry), the summarizer's `total_hours` equals the sum of the estimated
durations the builder used — the fixed lunch/dinner/rest fillers excluded
via their ids. -/
theorem summarizer_roundtrip_amended (bucket : List Spot)
    (dest budget : String) (dayIdx : ℕ)
    (hne : bucket ≠ [])
    (hall : spotActivityCount (buildDayTimeline dayIdx dest bucket budget)
      = bucket.length) :
    (buildDayThemeSummary bucket dest).totalHours
      = (((bucket.take
            (spotActivityCount (buildDayTimeline dayIdx dest bucket budget))).map
          estimateDurationHours).sum) := by
  rw [hall, List.take_length]
  exact buildDayThemeSummary_totalHours bucket dest hne

/-- Witness for C7 (amended): two one-hour food spots fit comfortably, the
builder emits both, and `total_hours = 2` matches. -/
theorem summarizer_roundtrip_amended_witness :
    (([{ title := some "a", category := some "美食" },
       { title := some "b", category := some "美食" }] : List Spot) ≠ [] ∧
      spotActivityCount
          (buildDayTimeline 0 "X"
            [{ title := some "a", category := some "美食" },
             { title := some "b", category := some "美食" }] "中")
        = 2) ∧
    (buildDayThemeSummary
        [{ title := some "a", category := some "美食" },
         { title := some "b", category := some "美食" }] "X").totalHours
      = ((([{ title := some "a", category := some "美食" },
            { title := some "b", category := some "美食" }] : List Spot).take
            (spotActivityCount
              (buildDayTimeline 0 "X"
                [{ title := some "a", category := some "美食" },
                 { title := some "b", category := some "美食" }] "中"))).map
          estimateDurationHours).sum :=
  ⟨⟨by decide, by decide⟩,
    summarizer_roundtrip_amended _ "X" "中" 0 (by decide) (by decide)⟩

/-! ## Claim C10: the Scoring Engine never mutates its input -/

lemma scoreStoreLoop_cons (interests : List String) (budget : String)
    (σ : Store) (a : ℕ) (rest : List ℕ) (idx : ℕ) :
    scoreStoreLoop interests budget σ (a :: rest) idx
      = match scoreOf interests budget idx (σ.getD a default).spot with
        | Option.none => (σ, Option.none)
        | some sc =>
          match scoreStoreLoop interests budget
              (σ ++ [{ spot := (σ.getD a default).spot, scoreKey := some sc }])
              rest (idx + 1) with
          | (σ'', Option.none) => (σ'', Option.none)
          | (σ'', some as) => (σ'', some (σ.length :: as)) := rfl

lemma scoreStoreLoop_spec (interests : List String) (budget : String) :
    ∀ (addrs : List ℕ) (σ : Store) (idx : ℕ),
      σ <+: (scoreStoreLoop interests budget σ addrs idx).1 ∧
      (∀ out, (scoreStoreLoop interests budget σ addrs idx).2 = some out →
        ∀ x ∈ out, σ.length ≤ x ∧
          x < (scoreStoreLoop interests budget σ addrs idx).1.length) := by
  intro addrs
  induction addrs with
  | nil =>
    intro σ idx
    refine ⟨List.prefix_refl σ, ?_⟩
    intro out hout x hx
    simp only [scoreStoreLoop, Option.some.injEq] at hout
    subst hout
    simp at hx
  | cons a rest ih =>
    intro σ idx
    rcases hsc : scoreOf interests budget idx (σ.getD a default).spot with _ | sc
    · constructor
      · simp only [scoreStoreLoop_cons, hsc]
        exact List.prefix_refl σ
      · intro out hout
        simp only [scoreStoreLoop_cons, hsc] at hout
        exact absurd hout (by simp)
    · have ih' := ih (σ ++ [{ spot := (σ.getD a default).spot, scoreKey := some sc }])
        (idx + 1)
      rcases hrec : scoreStoreLoop interests budget
          (σ ++ [{ spot := (σ.getD a default).spot, scoreKey := some sc }]) rest (idx + 1)
        with ⟨σ'', r⟩
      rw [hrec] at ih'
      have hpre : σ <+: σ'' := by
        refine List.IsPrefix.trans ?_ ih'.1
        exact ⟨[{ spot := (σ.getD a default).spot, scoreKey := some sc }], rfl⟩
      match r with
      | Option.none =>
        constructor
        · simp only [scoreStoreLoop_cons, hsc, hrec]
          exact hpre
        · intro out hout
          simp only [scoreStoreLoop_cons, hsc, hrec] at hout
          exact absurd hout (by simp)
      | some as =>
        constructor
        · simp only [scoreStoreLoop_cons, hsc, hrec]
          exact hpre
        · intro out hout x hx
          simp only [scoreStoreLoop_cons, hsc, hrec, Option.some.injEq] at hout
          subst hout
          have hlen1 : σ.length + 1 ≤ σ''.length := by
            have := ih'.1.length_le
            simpa using this
          simp only [scoreStoreLoop_cons, hsc, hrec]
          rcases List.mem_cons.mp hx with hx' | hx'
          · subst hx'
            exact ⟨le_rfl, by omega⟩
          · have hx2 := ih'.2 as rfl x hx'
            constructor
            · have : σ.length + 1 ≤ x := by simpa using hx2.1
              omega
            · exact hx2.2

/-- **C10**: the Scoring Engine, run over the explicit store, never mutates
the dicts its input addresses point to — the initial store is a prefix of
the final store (lines 100–102 write `_score` only on the fresh copy
`dict(s)`), and every address it returns is a freshly allocated copy, never
one of the input dicts. -/
theorem scoring_no_input_mutation (σ : Store) (addrs : List ℕ)
    (interests : List String) (budget : String)
    (hvalid : ∀ a ∈ addrs, a < σ.length) :
    ((scoreAndSortSpotsStore σ addrs interests budget).1.take σ.length = σ) ∧
    (∀ a ∈ addrs,
      (scoreAndSortSpotsStore σ addrs interests budget).1.getD a default
        = σ.getD a default) ∧
    (∀ out, (scoreAndSortSpotsStore σ addrs interests budget).2 = some out →
      ∀ x ∈ out, σ.length ≤ x) := by
  have hbase := scoreStoreLoop_spec interests budget addrs σ 0
  rcases hloop : scoreStoreLoop interests budget σ addrs 0 with ⟨σ', r⟩
  rw [hloop] at hbase
  have hσ' : (scoreAndSortSpotsStore σ addrs interests budget).1 = σ' := by
    unfold scoreAndSortSpotsStore
    split
    · rename_i he
      rw [List.isEmpty_iff.mp he] at hloop
      simp [scoreStoreLoop] at hloop
      exact hloop.1
    · rw [hloop]
      match r with
      | Option.none => rfl
      | some scored => rfl
  have hpre : σ <+: σ' := hbase.1
  have htake : σ'.take σ.length = σ := by
    obtain ⟨t, ht⟩ := hpre
    rw [← ht]
    simp
  refine ⟨by rw [hσ']; exact htake, ?_, ?_⟩
  · intro a ha
    rw [hσ']
    have hlt := hvalid a ha
    obtain ⟨t, ht⟩ := hpre
    rw [← ht]
    rw [List.getD_eq_getElem?_getD, List.getD_eq_getElem?_getD,
      List.getElem?_append_left hlt]
  · intro out hout x hx
    unfold scoreAndSortSpotsStore at hout
    by_cases he : addrs.isEmpty
    · rw [if_pos he] at hout
      simp only [Option.some.injEq] at hout
      subst hout
      simp at hx
    · rw [if_neg he, hloop] at hout
      match r, hout with
      | some scored, hout =>
        simp only [Option.some.injEq] at hout
        subst hout
        have hmem := (pySortDescBy_perm
          (fun a => ((σ'.getD a default).scoreKey).getD 0) scored).mem_iff.mp hx
        exact (hbase.2 scored rfl x hmem).1

/-- Witness for C10: a two-dict store scored through the store model. -/
theorem scoring_no_input_mutation_witness :
    (∀ a ∈ [0, 1], a < ([⟨{ rating := some (.num 4) }, Option.none⟩,
        ⟨{ rating := some (.num 5) }, Option.none⟩] : Store).length) ∧
    ((scoreAndSortSpotsStore
        [⟨{ rating := some (.num 4) }, Option.none⟩,
         ⟨{ rating := some (.num 5) }, Option.none⟩] [0, 1] [] "中").1.take 2
      = [⟨{ rating := some (.num 4) }, Option.none⟩,
         ⟨{ rating := some (.num 5) }, Option.none⟩]) :=
  ⟨by decide,
    (scoring_no_input_mutation
      [⟨{ rating := some (.num 4) }, Option.none⟩,
       ⟨{ rating := some (.num 5) }, Option.none⟩] [0, 1] [] "中"
      (by decide)).1⟩

/-! ## Claim C9: malformed day-edit responses -/

/-- An LLM edit outcome that is not the expected JSON shape: no JSON span
found, a raised parse/API error, or a JSON object carrying neither the
`no_change` directive nor an `activities` replacement. -/
def editParseFails : EditParse → Prop
  | .noMatch => True
  | .badJson => True
  | .parsed fields =>
      jlookupTruthy fields "no_change" = false ∧
      jlookup fields "activities" = Option.none

/-- **C9**: when the latest utterance is a free-form edit request (neither
an approval nor a media-rating request), the current day's plan exists, and
the LLM reply cannot be parsed as the expected JSON shape, `node_refine_day`
leaves the itinerary (and the phase) unchanged and only appends an
assistant reply telling the user the edit could not be applied. -/
theorem refine_malformed_edit_preserves_plan (o : Oracles) (st : AgentState)
    (plan : DayPlan)
    (hnotsat : ¬(isSatisfiedMsg (lastUserMsg st.messages) = true ∧
      (lastUserMsg st.messages).length < 20))
    (hnotmedia : isMediaRequest (lastUserMsg st.messages) = false)
    (hplan : (st.itinerary.getD []).get? (st.currentDayIndex.getD 0) = some plan)
    (hfail : editParseFails (o.editParse (refineSystemPrompt
        (st.destination.getD "未知") (st.interests.getD ["景点"])
        (st.currentDayIndex.getD 0) plan (lastUserMsg st.messages)))) :
    (nodeRefineDay o st).itinerary = st.itinerary ∧
    (nodeRefineDay o st).currentPhase = st.currentPhase ∧
    ∃ r, (nodeRefineDay o st).messages = st.messages ++ [⟨"assistant", r⟩] ∧
      (r = editErrorMessage ∨
        r = editNoJsonMessage (st.currentDayIndex.getD 0) ∨
        r = editNeedDetailMessage (st.currentDayIndex.getD 0)) := by
  have hbody :
      nodeRefineDay o st
        = match o.editParse (refineSystemPrompt (st.destination.getD "未知")
            (st.interests.getD ["景点"]) (st.currentDayIndex.getD 0) plan
            (lastUserMsg st.messages)) with
          | .badJson =>
            { st with messages := st.messages ++ [⟨"assistant", editErrorMessage⟩] }
          | .noMatch =>
            { st with messages := st.messages
                ++ [⟨"assistant", editNoJsonMessage (st.currentDayIndex.getD 0)⟩] }
          | .parsed fields =>
            if jlookupTruthy fields "no_change" then
              { st with messages := st.messages
                  ++ [⟨"assistant", noChangeMessage (st.currentDayIndex.getD 0)⟩] }
            else if (jlookup fields "activities").isSome then
              { st with
                itinerary := some ((st.itinerary.getD []).set
                  (st.currentDayIndex.getD 0) (planOfJson fields))
                messages := st.messages
                  ++ [⟨"assistant", editAppliedMessage (st.currentDayIndex.getD 0)⟩] }
            else
              { st with messages := st.messages
                  ++ [⟨"assistant", editNeedDetailMessage (st.currentDayIndex.getD 0)⟩] } := by
    simp only [nodeRefineDay]
    rw [if_neg hnotsat, if_neg (by simp [hnotmedia]), hplan]
  rcases hep : o.editParse (refineSystemPrompt (st.destination.getD "未知")
      (st.interests.getD ["景点"]) (st.currentDayIndex.getD 0) plan
      (lastUserMsg st.messages)) with _ | _ | fields
  · rw [hep] at hbody
    rw [hbody]
    exact ⟨rfl, rfl, editNoJsonMessage (st.currentDayIndex.getD 0), rfl,
      Or.inr (Or.inl rfl)⟩
  · rw [hep] at hbody
    rw [hbody]
    exact ⟨rfl, rfl, editErrorMessage, rfl, Or.inl rfl⟩
  · rw [hep] at hbody
    rw [hep] at hfail
    obtain ⟨hnc, hact⟩ := hfail
    simp only [hnc, hact, Option.isSome_none, Bool.false_eq_true, if_false] at hbody
    rw [hbody]
    exact ⟨rfl, rfl, editNeedDetailMessage (st.currentDayIndex.getD 0), rfl,
      Or.inr (Or.inr rfl)⟩

/-- A concrete plan, state and oracle set for the C9 witness. -/
def c9Plan : DayPlan :=
  { id := "day_1", day := "Day 1", summary := "约 2 小时 · 主题：X",
    metaTotalHours := 2, metaTheme := "X", metaHighlights := [], activities := [] }

def c9State : AgentState :=
  { messages := [⟨"user", "请帮我更换景点"⟩],
    destination := some "上海",
    days := some 3,
    interests := some ["美食"],
    budget := some "中",
    itinerary := some [c9Plan],
    currentPhase := some "refining_day",
    currentDayIndex := some 0,
    dayApproved := some false }

def c9Oracles : Oracles :=
  { complete := fun _ _ => ""
    editParse := fun _ => .noMatch
    fetchSpots := fun _ _ => []
    cityHotspots := fun _ => []
    analyzeMedia := fun _ _ => Option.none }

/-- Witness for C9: a concrete edit request whose LLM reply contains no
JSON span; the theorem applies and the itinerary is untouched. -/
theorem refine_malformed_edit_preserves_plan_witness :
    (¬(isSatisfiedMsg (lastUserMsg c9State.messages) = true ∧
        (lastUserMsg c9State.messages).length < 20) ∧
      isMediaRequest (lastUserMsg c9State.messages) = false ∧
      (c9State.itinerary.getD []).get? (c9State.currentDayIndex.getD 0) = some c9Plan) ∧
    (nodeRefineDay c9Oracles c9State).itinerary = c9State.itinerary :=
  ⟨⟨by decide, by decide, by decide⟩,
    (refine_malformed_edit_preserves_plan c9Oracles c9State c9Plan
      (by decide) (by decide) (by decide) trivial).1⟩

/-! ## Claim C4: the approval loop -/

lemma lastUserMsg_append_user (msgs : List Msg) (c : String) :
    lastUserMsg (msgs ++ [⟨"user", c⟩]) = c := by
  simp [lastUserMsg]

/-- Approval branch of `node_refine_day`, middle of the trip: mark
approved, advance the index, announce the next day, move to
`generating_day`. -/
lemma nodeRefineDay_approved_mid (o : Oracles) (st : AgentState) (cd : ℕ)
    (hcd : st.currentDayIndex = some cd) (hdays : st.days = some 3)
    (hsat : isSatisfiedMsg (lastUserMsg st.messages) = true)
    (hshort : (lastUserMsg st.messages).length < 20)
    (hlt : (cd : ℤ) + 1 < 3) :
    nodeRefineDay o st
      = { st with
          dayApproved := some true
          currentDayIndex := some (cd + 1)
          messages := st.messages ++ [⟨"assistant", transitionMessage cd⟩]
          currentPhase := some "generating_day" } := by
  simp only [nodeRefineDay, hcd, hdays, Option.getD_some]
  rw [if_pos ⟨hsat, hshort⟩, if_neg (by omega)]

/-- Approval branch of `node_refine_day`, final day: transition to
`completed`. -/
lemma nodeRefineDay_approved_last (o : Oracles) (st : AgentState) (cd : ℕ)
    (hcd : st.currentDayIndex = some cd) (hdays : st.days = some 3)
    (hsat : isSatisfiedMsg (lastUserMsg st.messages) = true)
    (hshort : (lastUserMsg st.messages).length < 20)
    (hge : (cd : ℤ) + 1 ≥ 3) :
    nodeRefineDay o st
      = { st with
          dayApproved := some true
          currentDayIndex := some (cd + 1)
          messages := st.messages ++ [⟨"assistant", completionMessage 3⟩]
          currentPhase := some "completed" } := by
  simp only [nodeRefineDay, hcd, hdays, Option.getD_some]
  rw [if_pos ⟨hsat, hshort⟩, if_pos (by omega)]

/-- `node_generate_single_day` appends a fresh plan when the current day
index is past the stored plans. -/
lemma nodeGenerateSingleDay_append (st : AgentState) (cd : ℕ) (ps : List DayPlan)
    (hcd : st.currentDayIndex = some cd) (hit : st.itinerary = some ps)
    (hge : ps.length ≤ cd) :
    ∃ plan msg, nodeGenerateSingleDay st
      = { st with
          itinerary := some (ps ++ [plan])
          messages := st.messages ++ [⟨"assistant", msg⟩]
          currentPhase := some "refining_day"
          dayApproved := some false } := by
  simp only [nodeGenerateSingleDay, hcd, hit, Option.getD_some]
  simp only [if_neg (show ¬(cd < ps.length) from by omega)]
  exact ⟨_, _, rfl⟩

/-- `process_user_message` dispatch from `refining_day`: run
`node_refine_day` and regenerate when it moved to `generating_day`. -/
lemma processUserMessage_refining_eq (o : Oracles) (msg : String)
    (st : AgentState) (hph : st.currentPhase = some "refining_day") :
    processUserMessage o msg st
      = (fun stF => some (stF, aiResponseOf stF, frontendUpdatesOf stF))
          (if (nodeRefineDay o
                { st with messages := st.messages ++ [⟨"user", msg⟩] }).currentPhase
              = some "generating_day" then
            nodeGenerateSingleDay
              (nodeRefineDay o { st with messages := st.messages ++ [⟨"user", msg⟩] })
          else
            nodeRefineDay o { st with messages := st.messages ++ [⟨"user", msg⟩] }) := by
  simp [processUserMessage, hph]

/-- One "满意" turn in the middle of the trip: the day is approved and the
next day auto-generates, appending one plan and returning to
`refining_day`. -/
lemma approval_turn_mid (o : Oracles) (st : AgentState) (cd : ℕ)
    (ps : List DayPlan)
    (hph : st.currentPhase = some "refining_day")
    (hcd : st.currentDayIndex = some cd)
    (hdays : st.days = some 3)
    (hit : st.itinerary = some ps)
    (hlen : ps.length = cd + 1)
    (hlt : (cd : ℤ) + 1 < 3) :
    ∃ stF resp fu, processUserMessage o "满意" st = some (stF, resp, fu) ∧
      stF.currentPhase = some "refining_day" ∧
      stF.currentDayIndex = some (cd + 1) ∧
      stF.days = some 3 ∧
      ∃ ps', stF.itinerary = some ps' ∧ ps'.length = cd + 2 := by
  have hrefine := nodeRefineDay_approved_mid o
    { st with messages := st.messages ++ [⟨"user", "满意"⟩] } cd
    (by simp [hcd]) (by simp [hdays])
    (by rw [show ({ st with messages := st.messages ++ [⟨"user", "满意"⟩] }
        : AgentState).messages = st.messages ++ [⟨"user", "满意"⟩] from rfl,
      lastUserMsg_append_user]; decide)
    (by rw [show ({ st with messages := st.messages ++ [⟨"user", "满意"⟩] }
        : AgentState).messages = st.messages ++ [⟨"user", "满意"⟩] from rfl,
      lastUserMsg_append_user]; decide)
    hlt
  have hgen := nodeGenerateSingleDay_append
    (nodeRefineDay o { st with messages := st.messages ++ [⟨"user", "满意"⟩] })
    (cd + 1) ps (by rw [hrefine]) (by rw [hrefine]; exact hit) (by omega)
  obtain ⟨plan, msg, hgen⟩ := hgen
  have hdisp := processUserMessage_refining_eq o "满意" st hph
  have hcond : (nodeRefineDay o
      { st with messages := st.messages ++ [⟨"user", "满意"⟩] }).currentPhase
      = some "generating_day" := by rw [hrefine]
  rw [if_pos hcond] at hdisp
  rw [hgen] at hdisp
  refine ⟨_, _, _, hdisp, ?_, ?_, ?_, ps ++ [plan], ?_, by simp [hlen]⟩
  · rw [hrefine]
  · rw [hrefine]
  · rw [hrefine]; exact hdays
  · rw [hrefine]

/-- The final "满意" turn: the trip completes and the itinerary is left as
is. -/
lemma approval_turn_last (o : Oracles) (st : AgentState) (cd : ℕ)
    (ps : List DayPlan)
    (hph : st.currentPhase = some "refining_day")
    (hcd : st.currentDayIndex = some cd)
    (hdays : st.days = some 3)
    (hit : st.itinerary = some ps)
    (hge : (cd : ℤ) + 1 ≥ 3) :
    ∃ stF resp fu, processUserMessage o "满意" st = some (stF, resp, fu) ∧
      stF.currentPhase = some "completed" ∧
      stF.itinerary = some ps := by
  have hrefine := nodeRefineDay_approved_last o
    { st with messages := st.messages ++ [⟨"user", "满意"⟩] } cd
    (by simp [hcd]) (by simp [hdays])
    (by rw [show ({ st with messages := st.messages ++ [⟨"user", "满意"⟩] }
        : AgentState).messages = st.messages ++ [⟨"user", "满意"⟩] from rfl,
      lastUserMsg_append_user]; decide)
    (by rw [show ({ st with messages := st.messages ++ [⟨"user", "满意"⟩] }
        : AgentState).messages = st.messages ++ [⟨"user", "满意"⟩] from rfl,
      lastUserMsg_append_user]; decide)
    hge
  have hdisp := processUserMessage_refining_eq o "满意" st hph
  have hcond : ¬((nodeRefineDay o
      { st with messages := st.messages ++ [⟨"user", "满意"⟩] }).currentPhase
      = some "generating_day") := by rw [hrefine]; simp
  rw [if_neg hcond] at hdisp
  rw [hrefine] at hdisp
  refine ⟨_, _, _, hdisp, rfl, ?_⟩
  exact hit

/-- **C4 (amended)**: starting in `refining_day` at day index 0 of a 3-day
trip with day 1 already generated, sending the approval keyword "满意"
(rendered "satisfied" in the spec) three times ends in phase `completed`
with exactly 3 day plans. -/
theorem approval_loop_amended (o : Oracles) (st : AgentState)
    (ps : List DayPlan)
    (hph : st.currentPhase = some "refining_day")
    (hcd : st.currentDayIndex = some 0)
    (hdays : st.days = some 3)
    (hit : st.itinerary = some ps)
    (hlen : ps.length = 1) :
    ∃ st1 r1 f1 st2 r2 f2 st3 r3 f3,
      processUserMessage o "满意" st = some (st1, r1, f1) ∧
      processUserMessage o "满意" st1 = some (st2, r2, f2) ∧
      processUserMessage o "满意" st2 = some (st3, r3, f3) ∧
      st3.currentPhase = some "completed" ∧
      ∃ ps3, st3.itinerary = some ps3 ∧ ps3.length = 3 := by
  obtain ⟨st1, r1, f1, h1, hph1, hcd1, hdays1, ps1, hit1, hlen1⟩ :=
    approval_turn_mid o st 0 ps hph hcd hdays hit (by omega) (by norm_num)
  obtain ⟨st2, r2, f2, h2, hph2, hcd2, hdays2, ps2, hit2, hlen2⟩ :=
    approval_turn_mid o st1 1 ps1 hph1 hcd1 hdays1 hit1 (by omega) (by norm_num)
  obtain ⟨st3, r3, f3, h3, hph3, hit3⟩ :=
    approval_turn_last o st2 2 ps2 hph2 hcd2 hdays2 hit2 (by norm_num)
  exact ⟨st1, r1, f1, st2, r2, f2, st3, r3, f3, h1, h2, h3, hph3,
    ps2, hit3, by omega⟩

/-- Concrete state, plan and oracles for C4's counterexample and witness. -/
def c4Plan : DayPlan :=
  { id := "day_1", day := "Day 1", summary := "约 2 小时 · 主题：X",
    metaTotalHours := 2, metaTheme := "X", metaHighlights := [], activities := [] }

def c4State : AgentState :=
  { messages := [],
    destination := some "上海",
    days := some 3,
    interests := some ["美食"],
    budget := some "中",
    itinerary := some [c4Plan],
    currentPhase := some "refining_day",
    currentDayIndex := some 0,
    dayApproved := some false,
    sortedSpots := some [] }

def c4Oracles : Oracles :=
  { complete := fun _ _ => ""
    editParse := fun _ => .noMatch
    fetchSpots := fun _ _ => []
    cityHotspots := fun _ => []
    analyzeMedia := fun _ _ => Option.none }

/-- **C4, counterexample**: the literal English message "satisfied" contains
none of the code's approval keywords (`满意`, `下一天`, …, "next", "ok"), so
three such turns run the free-form edit branch instead: the run stays in
`refining_day` with the single original day plan — not `completed` with 3
plans as claimed. -/
theorem approval_loop_counterexample :
    (((processUserMessage c4Oracles "satisfied" c4State).bind
        (fun t => processUserMessage c4Oracles "satisfied" t.1)).bind
        (fun t => processUserMessage c4Oracles "satisfied" t.1)).map
      (fun t => (t.1.currentPhase, (t.1.itinerary.getD []).length))
      = some (some "refining_day", 1) := by
  decide

/-- Witness for C4 (amended) at the concrete start state. -/
theorem approval_loop_amended_witness :
    (c4State.currentPhase = some "refining_day" ∧
      c4State.currentDayIndex = some 0 ∧
      c4State.days = some 3 ∧
      c4State.itinerary = some [c4Plan] ∧
      ([c4Plan] : List DayPlan).length = 1) ∧
    (∃ st1 r1 f1 st2 r2 f2 st3 r3 f3,
      processUserMessage c4Oracles "满意" c4State = some (st1, r1, f1) ∧
      processUserMessage c4Oracles "满意" st1 = some (st2, r2, f2) ∧
      processUserMessage c4Oracles "满意" st2 = some (st3, r3, f3) ∧
      st3.currentPhase = some "completed" ∧
      ∃ ps3, st3.itinerary = some ps3 ∧ ps3.length = 3) :=
  ⟨⟨rfl, rfl, rfl, rfl, rfl⟩,
    approval_loop_amended c4Oracles c4State [c4Plan] rfl rfl rfl rfl rfl⟩

end TravelPlanner
